import Mathlib

/-!
Tracing hooks for the go-redis client (packages `v7` and `v8`).

A shallow embedding of `v7/redis.go`, `v8/redis.go` and `v8/option.go`.

* Go strings are modelled by `String`; every separator the code looks for
  (`' '`, `':'`, `'['`, `']'`) is ASCII, so scanning characters and scanning
  bytes agree.
* Go `int` is modelled by `Int`.
* `float64` is modelled by `Float64` below: the code only stores a rate,
  compares it with `0.0` and `1.0`, and asks whether it is NaN.
* The tracer is explicit state (`Tracer`): the spans started so far and the
  log of spans that were finished.  A `context.Context` is modelled by the
  span it carries.
* An index expression that would panic in Go makes the embedded function
  return `none`.
-/

namespace GoRedisTrace

/-! ## Go standard library: `strings`, `strconv`, `math`, `net` -/

/-- The loop of `strings.Split` for a one-character separator: `cur` is the
piece read so far, every separator closes the current piece, and the end of
the input closes the last one. -/
def splitLoop (sep : Char) : List Char → List Char → List (List Char)
  | cur, [] => [cur]
  | cur, c :: cs =>
    if c = sep then cur :: splitLoop sep [] cs else splitLoop sep (cur ++ [c]) cs

/-- The function `strings.Split(s, sep)` where `sep` is a one-character string. -/
def Split (s : String) (sep : Char) : List String :=
  (splitLoop sep [] s.data).map String.mk

/-- The function `strconv.Itoa`: the decimal rendering of an `int`. -/
def Itoa (i : Int) : String :=
  match i with
  | Int.ofNat n => Nat.repr n
  | Int.negSucc n => "-" ++ Nat.repr (n + 1)

/-- Go `float64` values, as far as the code observes them: not-a-number, the
two infinities, and the finite values (which are rational numbers; the sign of
zero is not observed by any comparison the code makes). -/
inductive Float64 where
  | NaN : Float64
  | posInf : Float64
  | negInf : Float64
  | fin (q : ℚ) : Float64
  deriving DecidableEq

namespace Float64

/-- The function `math.IsNaN`. -/
def IsNaN : Float64 → Bool
  | NaN => true
  | _ => false

/-- Go `x <= y` on `float64`: false as soon as one side is NaN. -/
def le : Float64 → Float64 → Bool
  | NaN, _ => false
  | _, NaN => false
  | negInf, _ => true
  | _, posInf => true
  | posInf, _ => false
  | _, negInf => false
  | fin a, fin b => decide (a ≤ b)

/-- Go `x >= y` on `float64`. -/
def ge (x y : Float64) : Bool := le y x

end Float64

/-! ## go-redis: errors, commands, connection options -/

/-- A non-nil Go `error` value.  `RedisError` is go-redis's string error type
`proto.RedisError`; `other` stands for every other dynamic type. -/
inductive GoError where
  | RedisError (msg : String) : GoError
  | other (typeName msg : String) : GoError
  deriving DecidableEq

/-- A Go `error` interface value: `none` is `nil`. -/
abbrev error := Option GoError

namespace redis

/-- The sentinel `redis.Nil`, which is `proto.RedisError("redis: nil")`. -/
def Nil : error := some (GoError.RedisError "redis: nil")

/-- What the hook reads of a `redis.Cmder`: `str` is the result of
`cmd.String()` and `err` the result of `cmd.Err()`. -/
structure Cmder where
  str : String
  err : error
  deriving DecidableEq

/-- The fields of `redis.Options` the code reads. -/
structure Options where
  Addr : String
  DB : Int
  deriving DecidableEq

end redis

/-! ## dd-trace-go: tags, spans, tracer, context -/

namespace ext

def SpanType : String := "span.type"
def ServiceName : String := "service.name"
def ResourceName : String := "resource.name"
def TargetHost : String := "out.host"
def TargetPort : String := "out.port"
def EventSampleRate : String := "_dd1.sr.eausr"
def Error : String := "error"
def SpanTypeRedis : String := "redis"

end ext

/-- A tag value (Go `interface{}`): the code stores strings, one `float64`
and, through `Finish`, an error. -/
inductive TagValue where
  | str (s : String) : TagValue
  | num (f : Float64) : TagValue
  | err (e : GoError) : TagValue
  deriving DecidableEq

/-- A tag map `map[string]interface{}` as a list of bindings with distinct keys. -/
abbrev Tags := List (String × TagValue)

/-- The assignment `m[k] = v`. -/
def Tags.set (m : Tags) (k : String) (v : TagValue) : Tags :=
  (k, v) :: m.filter (fun kv => kv.1 ≠ k)

/-- The lookup `m[k]`. -/
def Tags.get (m : Tags) (k : String) : Option TagValue :=
  (m.find? (fun kv => kv.1 = k)).map Prod.snd

/-- A span record of the tracer; `finished` is the span's flag of that name,
set by the first `Finish`. -/
structure Span where
  operationName : String
  parent : Option Nat
  tags : Tags
  finished : Bool
  deriving DecidableEq

/-- The span record after the assignment `tags[k] = v`. -/
def Span.withTag (k : String) (v : TagValue) (sp : Span) : Span :=
  { sp with tags := sp.tags.set k v }

/-- The method `span.SetTag(k, v)` on the span record: a finished span ignores it. -/
def Span.SetTag (k : String) (v : TagValue) (sp : Span) : Span :=
  if sp.finished then sp else sp.withTag k v

/-- The assignment `s.finished = true`. -/
def Span.markFinished (sp : Span) : Span :=
  { sp with finished := true }

/-- The tracer: `spans` holds every span started so far (a span's identifier
is its position), `finished` lists the identifiers of the finished spans, in
the order in which they were finished. -/
structure Tracer where
  spans : List Span
  finished : List Nat
  deriving DecidableEq

/-- A `context.Context`, reduced to the span it carries (if any). -/
structure Context where
  span : Option Nat
  deriving DecidableEq

/-- A `ddtrace.Span` handle: the no-op span, or a span of the tracer. -/
inductive SpanRef where
  | noop : SpanRef
  | live (id : Nat) : SpanRef
  deriving DecidableEq

namespace ddtrace

/-- The part of `ddtrace.StartSpanConfig` that is used. -/
structure StartSpanConfig where
  Parent : Option Nat
  Tags : GoRedisTrace.Tags
  deriving DecidableEq

abbrev StartSpanOption := StartSpanConfig → StartSpanConfig

/-- The part of `ddtrace.FinishConfig` that is used. -/
structure FinishConfig where
  Error : error
  deriving DecidableEq

abbrev FinishOption := FinishConfig → FinishConfig

end ddtrace

namespace tracer

open ddtrace

/-- The option `tracer.Tag(k, v)`. -/
def Tag (k : String) (v : TagValue) : StartSpanOption :=
  fun cfg => { cfg with Tags := cfg.Tags.set k v }

/-- The option `tracer.SpanType(name)`. -/
def SpanType (name : String) : StartSpanOption := Tag ext.SpanType (TagValue.str name)

/-- The option `tracer.ServiceName(name)`. -/
def ServiceName (name : String) : StartSpanOption := Tag ext.ServiceName (TagValue.str name)

/-- The option `tracer.ResourceName(name)`. -/
def ResourceName (name : String) : StartSpanOption := Tag ext.ResourceName (TagValue.str name)

/-- The option `tracer.ChildOf(parent)`. -/
def ChildOf (parent : Nat) : StartSpanOption :=
  fun cfg => { cfg with Parent := some parent }

/-- The option `tracer.WithError(err)`. -/
def WithError (err : error) : FinishOption :=
  fun cfg => { cfg with Error := err }

/-- The function `tracer.SpanFromContext`: the span carried by the context,
or the no-op span together with `false`. -/
def SpanFromContext (ctx : Context) : SpanRef × Bool :=
  match ctx.span with
  | some id => (SpanRef.live id, true)
  | none => (SpanRef.noop, false)

/-- The function `tracer.StartSpan`: apply the options to an empty
configuration, default the resource name to the operation name, and register
the new span. -/
def StartSpan (t : Tracer) (operationName : String) (opts : List StartSpanOption) :
    Tracer × Nat :=
  let cfg := opts.foldl (fun c o => o c) { Parent := none, Tags := [] }
  let tags :=
    match cfg.Tags.get ext.ResourceName with
    | none => cfg.Tags.set ext.ResourceName (TagValue.str operationName)
    | some _ => cfg.Tags
  let s : Span :=
    { operationName := operationName, parent := cfg.Parent, tags := tags, finished := false }
  ({ t with spans := t.spans ++ [s] }, t.spans.length)

/-- The function `tracer.StartSpanFromContext`: the new span is a child of the
span carried by `ctx`, and the returned context carries the new span. -/
def StartSpanFromContext (t : Tracer) (ctx : Context) (operationName : String)
    (opts : List StartSpanOption) : Tracer × Nat × Context :=
  let opts :=
    match SpanFromContext ctx with
    | (SpanRef.live s, true) => opts ++ [ChildOf s]
    | _ => opts
  let r := StartSpan t operationName opts
  (r.1, r.2, { span := some r.2 })

/-- The method `span.SetTag(k, v)`; the no-op span ignores it, and so does a
span that is already finished. -/
def SetTag (t : Tracer) (s : SpanRef) (k : String) (v : TagValue) : Tracer :=
  match s with
  | SpanRef.noop => t
  | SpanRef.live id =>
    { t with spans := t.spans.modify (Span.SetTag k v) id }

/-- The method `span.Finish(opts...)`: apply the options to a zero
configuration and record a non-nil error under the error tag (ignored, like
every tag, by a finished span); then, if the span is already finished, return;
otherwise mark it finished and hand it to the tracer's list of finished spans.
The no-op span ignores the call. -/
def Finish (t : Tracer) (s : SpanRef) (opts : List FinishOption) : Tracer :=
  match s with
  | SpanRef.noop => t
  | SpanRef.live id =>
    let cfg := opts.foldl (fun c o => o c) { Error := none }
    let t1 :=
      match cfg.Error with
      | some e => SetTag t s ext.Error (TagValue.err e)
      | none => t
    match t1.spans[id]? with
    | none => t1
    | some sp =>
      if sp.finished then t1
      else { spans := t1.spans.modify Span.markFinished id, finished := t1.finished ++ [id] }

end tracer

/-! ## Go standard library: `net.SplitHostPort` -/

namespace net

/-- The error type `net.AddrError`. -/
structure AddrError where
  Err : String
  Addr : String
  deriving DecidableEq

/-- The function `bytealg.IndexByteString`: the position of the first `c` in
`s`; `none` is Go's `-1`. -/
def IndexByteString : List Char → Char → Option Nat
  | [], _ => none
  | x :: xs, c => if x = c then some 0 else (IndexByteString xs c).map (· + 1)

/-- The function `last` of package `net`: the position of the last `c` in `s`;
`none` is Go's `-1`. -/
def last (s : List Char) (c : Char) : Option Nat :=
  (IndexByteString s.reverse c).map (fun j => s.length - 1 - j)

/-- The helper `addrErr` of `SplitHostPort`. -/
def addrErr (addr why : String) : String × String × Option AddrError :=
  ("", "", some { Err := why, Addr := addr })

/-- The end of `SplitHostPort`, shared by both branches, once `host`, `j` and
`k` are known: no `'['` from `j` on, no `']'` from `k` on, and the port is
what follows the last colon (at position `i`). -/
def splitTail (hostport : String) (i j k : Nat) (host : List Char) :
    String × String × Option AddrError :=
  if (IndexByteString (hostport.data.drop j) '[').isSome then
    addrErr hostport "unexpected '[' in address"
  else if (IndexByteString (hostport.data.drop k) ']').isSome then
    addrErr hostport "unexpected ']' in address"
  else
    (String.mk host, String.mk (hostport.data.drop (i + 1)), none)

/-- The function `net.SplitHostPort`, returning `(host, port, err)`. -/
def SplitHostPort (hostport : String) : String × String × Option AddrError :=
  let missingPort := "missing port in address"
  let tooManyColons := "too many colons in address"
  let s := hostport.data
  match last s ':' with
  | none => addrErr hostport missingPort
  | some i =>
    if s.head? = some '[' then
      match IndexByteString s ']' with
      | none => addrErr hostport "missing ']' in address"
      | some e =>
        if e + 1 = s.length then
          addrErr hostport missingPort
        else if e + 1 = i then
          splitTail hostport i 1 (e + 1) ((s.take e).drop 1)
        else if s[e + 1]? = some ':' then
          addrErr hostport tooManyColons
        else
          addrErr hostport missingPort
    else
      let host := s.take i
      if (IndexByteString host ':').isSome then
        addrErr hostport tooManyColons
      else
        splitTail hostport i 0 0 host

end net

namespace redis

/-- The part of go-redis's `redis.Client` that the wrappers use: its options
and the hooks added to it (`H` is the hook type). -/
structure Client (H : Type) where
  opt : Options
  hooks : List H

/-- The method `c.Options()`. -/
def Client.Options {H : Type} (c : Client H) : Options := c.opt

/-- The method `c.AddHook(h)`. -/
def Client.AddHook {H : Type} (c : Client H) (h : H) : Client H :=
  { c with hooks := c.hooks ++ [h] }

/-- The function `redis.NewClient(opt)`: go-redis initialises the options (an empty
address becomes `"localhost:6379"`) and the new client has no hook. -/
def NewClient (H : Type) (opt : Options) : Client H :=
  { opt := { opt with Addr := if opt.Addr = "" then "localhost:6379" else opt.Addr },
    hooks := [] }

end redis

/-- The function `commandsToString` (the same in `v7/redis.go` and `v8/redis.go`):
every command's string form followed by a newline. -/
def commandsToString (cmds : List redis.Cmder) : String :=
  cmds.foldl (fun b cmd => (b ++ cmd.str) ++ "\n") ""

/-! ## Package `v8`: `option.go` -/

namespace v8

def defaultHost : String := "127.0.0.1"
def defaultPort : String := "6379"
def defaultDB : String := "0"

structure clientConfig where
  serviceName : String
  analyticsRate : Float64
  host : String
  port : String
  db : String
  deriving DecidableEq

/-- An option that can be used to create or wrap a client: a `func(*clientConfig)`,
as the function from the configuration before to the configuration after. -/
abbrev ClientOption := clientConfig → clientConfig

/-- The value of `new(clientConfig)`. -/
def clientConfig.zero : clientConfig :=
  { serviceName := "", analyticsRate := Float64.fin 0, host := "", port := "", db := "" }

def defaults (cfg : clientConfig) : clientConfig :=
  let cfg := { cfg with serviceName := "redis.client" }
  let cfg := { cfg with analyticsRate := Float64.NaN }
  let cfg := { cfg with host := defaultHost }
  let cfg := { cfg with port := defaultPort }
  { cfg with db := defaultDB }

def WithServiceName (name : String) : ClientOption :=
  fun cfg => { cfg with serviceName := name }

def WithAnalytics (on_ : Bool) : ClientOption :=
  fun cfg =>
    if on_ then { cfg with analyticsRate := Float64.fin 1 }
    else { cfg with analyticsRate := Float64.NaN }

def WithAnalyticsRate (rate : Float64) : ClientOption :=
  fun cfg =>
    if Float64.ge rate (Float64.fin 0) && Float64.le rate (Float64.fin 1) then
      { cfg with analyticsRate := rate }
    else { cfg with analyticsRate := Float64.NaN }

def WithHost (host : String) : ClientOption :=
  fun cfg => { cfg with host := host }

def WithPort (port : String) : ClientOption :=
  fun cfg => { cfg with port := port }

def WithDB (db : String) : ClientOption :=
  fun cfg => { cfg with db := db }

def WithRedisOptions (opts : redis.Options) : ClientOption :=
  fun cfg =>
    let (host, port, err) := net.SplitHostPort opts.Addr
    let (host, port) := if err ≠ none then (defaultHost, defaultPort) else (host, port)
    let cfg := { cfg with host := host }
    let cfg := { cfg with port := port }
    { cfg with db := Itoa opts.DB }

/-- Modelled from the spec: `WrapClient` calls an unexported `withRedisOptions`
that no source file defines; the spec knows one derive-from-connection-options
mutator (parse the address into host and port, fall back to the fixed defaults,
copy the db index), which is what `WithRedisOptions` does. -/
def withRedisOptions (opts : redis.Options) : ClientOption := WithRedisOptions opts

/-! ## Package `v8`: `redis.go` -/

structure Hook where
  cfg : clientConfig
  deriving DecidableEq

def NewHook (opts : List ClientOption) : Hook :=
  let cfg := defaults clientConfig.zero
  let cfg := opts.foldl (fun c opt => opt c) cfg
  { cfg := cfg }

def WrapClient (c : redis.Client Hook) (opts : List ClientOption) : redis.Client Hook :=
  let _opts := [withRedisOptions c.Options]
  let _opts := _opts ++ opts
  c.AddHook (NewHook _opts)

def NewClient (opt : redis.Options) (opts : List ClientOption) : redis.Client Hook :=
  WrapClient (redis.NewClient Hook opt) opts

/-- The method `BeforeProcess`: the new tracer state, the returned context and the
returned error; `none` if `parts[0]` is out of range. -/
def Hook.BeforeProcess (h : Hook) (t : Tracer) (ctx : Context) (cmd : redis.Cmder) :
    Option (Tracer × Context × error) := do
  let raw := cmd.str
  let parts := Split raw ' '
  let length : Int := (parts.length : Int) - 1
  let parts0 ← parts[0]?
  let opts : List ddtrace.StartSpanOption := [
    tracer.SpanType ext.SpanTypeRedis,
    tracer.ServiceName h.cfg.serviceName,
    tracer.ResourceName parts0,
    tracer.Tag ext.TargetHost (TagValue.str h.cfg.host),
    tracer.Tag ext.TargetPort (TagValue.str h.cfg.port),
    tracer.Tag "out.db" (TagValue.str h.cfg.db),
    tracer.Tag "redis.raw_command" (TagValue.str raw),
    tracer.Tag "redis.args_length" (TagValue.str (Itoa length))]
  let opts :=
    if !Float64.IsNaN h.cfg.analyticsRate then
      opts ++ [tracer.Tag ext.EventSampleRate (TagValue.num h.cfg.analyticsRate)]
    else opts
  let r := tracer.StartSpanFromContext t ctx "redis.command" opts
  pure (r.1, r.2.2, none)

/-- The method `AfterProcess`: the new tracer state and the returned error. -/
def Hook.AfterProcess (_h : Hook) (t : Tracer) (ctx : Context) (cmd : redis.Cmder) :
    Tracer × error :=
  let span := (tracer.SpanFromContext ctx).1
  let finishOpts : List ddtrace.FinishOption := []
  let err := cmd.err
  let finishOpts := if err ≠ redis.Nil then finishOpts ++ [tracer.WithError err] else finishOpts
  (tracer.Finish t span finishOpts, err)

/-- The method `BeforeProcessPipeline`; `none` if `parts[0]` is out of range. -/
def Hook.BeforeProcessPipeline (h : Hook) (t : Tracer) (ctx : Context)
    (cmds : List redis.Cmder) : Option (Tracer × Context × error) := do
  let raw := commandsToString cmds
  let parts := Split raw ' '
  let length : Int := (parts.length : Int) - 1
  let parts0 ← parts[0]?
  let opts : List ddtrace.StartSpanOption := [
    tracer.SpanType ext.SpanTypeRedis,
    tracer.ServiceName h.cfg.serviceName,
    tracer.ResourceName parts0,
    tracer.Tag ext.TargetHost (TagValue.str h.cfg.host),
    tracer.Tag ext.TargetPort (TagValue.str h.cfg.port),
    tracer.Tag "out.db" (TagValue.str h.cfg.db),
    tracer.Tag "redis.raw_command" (TagValue.str raw),
    tracer.Tag "redis.args_length" (TagValue.str (Itoa length))]
  let opts :=
    if !Float64.IsNaN h.cfg.analyticsRate then
      opts ++ [tracer.Tag ext.EventSampleRate (TagValue.num h.cfg.analyticsRate)]
    else opts
  let r := tracer.StartSpanFromContext t ctx "redis.command" opts
  pure (r.1, r.2.2, none)

/-- The method `AfterProcessPipeline`: the new tracer state and the returned error. -/
def Hook.AfterProcessPipeline (_h : Hook) (t : Tracer) (ctx : Context)
    (cmds : List redis.Cmder) : Tracer × error :=
  let span := (tracer.SpanFromContext ctx).1
  let t := tracer.SetTag t span ext.ResourceName (TagValue.str (commandsToString cmds))
  let t := tracer.SetTag t span "redis.pipeline_length" (TagValue.str (Itoa (cmds.length : Int)))
  let t := tracer.Finish t span []
  (t, none)

end v8

/-! ## Package `v7`: `redis.go` -/

namespace v7

/-- Modelled from the spec: `clientConfig` is declared in `v7/option.go`, which is
not among the sources.  The spec's configuration record has these five fields;
`v7/redis.go` reads `serviceName` and `analyticsRate`. -/
structure clientConfig where
  serviceName : String
  analyticsRate : Float64
  host : String
  port : String
  db : String
  deriving DecidableEq

/-- An option that can be used to create or wrap a client: a `func(*clientConfig)`. -/
abbrev ClientOption := clientConfig → clientConfig

/-- The value of `new(clientConfig)`. -/
def clientConfig.zero : clientConfig :=
  { serviceName := "", analyticsRate := Float64.fin 0, host := "", port := "", db := "" }

/-- The parameters which are recorded with every trace. -/
structure params where
  host : String
  port : String
  db : String
  config : clientConfig
  deriving DecidableEq

/-- The traced client: the wrapped `*redis.Client`, reduced to its options, and
the parameters. -/
structure Client where
  opt : redis.Options
  params : params
  deriving DecidableEq

structure hook where
  tc : Client
  deriving DecidableEq

/-- The function `WrapClient`; `c` is the options of the wrapped client, and
`defaults` is the function of that name of `v7/option.go`, which is not among
the sources.  The hook that `WrapClient` adds to the client is `{ tc := tc }`
for the returned `tc`. -/
def WrapClient (defaults : clientConfig → clientConfig) (c : redis.Options)
    (opts : List ClientOption) : Client :=
  let cfg := defaults clientConfig.zero
  let cfg := opts.foldl (fun c fn => fn c) cfg
  let opt := c
  let (host, port, err) := net.SplitHostPort opt.Addr
  let (host, port) := if err ≠ none then (opt.Addr, "6379") else (host, port)
  let params : params := { host := host, port := port, db := Itoa opt.DB, config := cfg }
  { opt := c, params := params }

/-- The function `NewClient`. -/
def NewClient (defaults : clientConfig → clientConfig) (opt : redis.Options)
    (opts : List ClientOption) : Client :=
  WrapClient defaults (redis.NewClient hook opt).Options opts

/-- The method `BeforeProcess`: the new tracer state, the returned context and the
returned error; `none` if `parts[0]` is out of range. -/
def hook.BeforeProcess (h : hook) (t : Tracer) (ctx : Context) (cmd : redis.Cmder) :
    Option (Tracer × Context × error) := do
  let raw := cmd.str
  let parts := Split raw ' '
  let length : Int := (parts.length : Int) - 1
  let p := h.tc.params
  let parts0 ← parts[0]?
  let opts : List ddtrace.StartSpanOption := [
    tracer.SpanType ext.SpanTypeRedis,
    tracer.ServiceName p.config.serviceName,
    tracer.ResourceName parts0,
    tracer.Tag ext.TargetHost (TagValue.str p.host),
    tracer.Tag ext.TargetPort (TagValue.str p.port),
    tracer.Tag "out.db" (TagValue.str p.db),
    tracer.Tag "redis.raw_command" (TagValue.str raw),
    tracer.Tag "redis.args_length" (TagValue.str (Itoa length))]
  let opts :=
    if !Float64.IsNaN p.config.analyticsRate then
      opts ++ [tracer.Tag ext.EventSampleRate (TagValue.num p.config.analyticsRate)]
    else opts
  let r := tracer.StartSpanFromContext t ctx "redis.command" opts
  pure (r.1, r.2.2, none)

/-- The method `AfterProcess`: the new tracer state and the returned error. -/
def hook.AfterProcess (_h : hook) (t : Tracer) (ctx : Context) (cmd : redis.Cmder) :
    Tracer × error :=
  let span := (tracer.SpanFromContext ctx).1
  let finishOpts : List ddtrace.FinishOption := []
  let err := cmd.err
  let finishOpts := if err ≠ redis.Nil then finishOpts ++ [tracer.WithError err] else finishOpts
  (tracer.Finish t span finishOpts, err)

/-- The method `BeforeProcessPipeline`; `none` if `parts[0]` is out of range. -/
def hook.BeforeProcessPipeline (h : hook) (t : Tracer) (ctx : Context)
    (cmds : List redis.Cmder) : Option (Tracer × Context × error) := do
  let raw := commandsToString cmds
  let parts := Split raw ' '
  let length : Int := (parts.length : Int) - 1
  let p := h.tc.params
  let parts0 ← parts[0]?
  let opts : List ddtrace.StartSpanOption := [
    tracer.SpanType ext.SpanTypeRedis,
    tracer.ServiceName p.config.serviceName,
    tracer.ResourceName parts0,
    tracer.Tag ext.TargetHost (TagValue.str p.host),
    tracer.Tag ext.TargetPort (TagValue.str p.port),
    tracer.Tag "out.db" (TagValue.str p.db),
    tracer.Tag "redis.raw_command" (TagValue.str raw),
    tracer.Tag "redis.args_length" (TagValue.str (Itoa length))]
  let opts :=
    if !Float64.IsNaN p.config.analyticsRate then
      opts ++ [tracer.Tag ext.EventSampleRate (TagValue.num p.config.analyticsRate)]
    else opts
  let r := tracer.StartSpanFromContext t ctx "redis.command" opts
  pure (r.1, r.2.2, none)

/-- The method `AfterProcessPipeline`: the new tracer state and the returned error. -/
def hook.AfterProcessPipeline (_h : hook) (t : Tracer) (ctx : Context)
    (cmds : List redis.Cmder) : Tracer × error :=
  let span := (tracer.SpanFromContext ctx).1
  let t := tracer.SetTag t span ext.ResourceName (TagValue.str (commandsToString cmds))
  let t := tracer.SetTag t span "redis.pipeline_length" (TagValue.str (Itoa (cmds.length : Int)))
  let t := tracer.Finish t span []
  (t, none)

end v7

/-! ## Reading the tracer -/

/-- The tag `k` of span `id`, if the span exists and has the tag. -/
def Tracer.tag (t : Tracer) (id : Nat) (k : String) : Option TagValue :=
  t.spans[id]?.bind (fun sp => sp.tags.get k)

/-- The number of `Finish` calls logged for span `id`. -/
def Tracer.finishCount (t : Tracer) (id : Nat) : Nat := t.finished.count id

/-- The empty tracer. -/
def Tracer.empty : Tracer := { spans := [], finished := [] }

/-- The background context: it carries no span. -/
def Context.background : Context := { span := none }

/-! ## The spec's reading of "whitespace-delimited token" -/

/-- White space as `unicode.IsSpace` defines it. -/
def isWhitespace (c : Char) : Bool :=
  c = ' ' || c = '\t' || c = '\n' || c = '\x0b' || c = '\x0c' || c = '\r' ||
  c = '\u0085' || c = '\u00a0' || c = '\u1680' ||
  ('\u2000' ≤ c && c ≤ '\u200a') ||
  c = '\u2028' || c = '\u2029' || c = '\u202f' || c = '\u205f' || c = '\u3000'

/-- The loop behind `whitespaceTokens`: `cur` is the token read so far; white
space closes a non-empty token and is otherwise skipped. -/
def tokensLoop : List Char → List Char → List (List Char)
  | cur, [] => if cur = [] then [] else [cur]
  | cur, c :: cs =>
    if isWhitespace c then
      (if cur = [] then tokensLoop [] cs else cur :: tokensLoop [] cs)
    else tokensLoop (cur ++ [c]) cs

/-- The whitespace-delimited tokens of a string, in the spec's words: the
maximal runs of characters that are not white space. -/
def whitespaceTokens (s : String) : List String :=
  (tokensLoop [] s.data).map String.mk

/-- The words joined by single space characters. -/
def joinSpaces : List String → String
  | [] => ""
  | [w] => w
  | w :: w2 :: ws => (w ++ " ") ++ joinSpaces (w2 :: ws)

/-- The prefix of `s` before its first space character (all of `s` if it has none). -/
def beforeFirstSpace (s : String) : String :=
  String.mk (s.data.takeWhile (fun c => c ≠ ' '))

/-! ## Vocabulary of the statements -/

/-- The common body of the four `Before` callbacks, which differ only in where
they read the service name, host, port, db and rate, and in what `raw` is. -/
def beforeUnit (serviceName host port db raw : String) (rate : Float64) (t : Tracer)
    (ctx : Context) : Option (Tracer × Context × error) := do
  let parts := Split raw ' '
  let length : Int := (parts.length : Int) - 1
  let parts0 ← parts[0]?
  let opts : List ddtrace.StartSpanOption := [
    tracer.SpanType ext.SpanTypeRedis,
    tracer.ServiceName serviceName,
    tracer.ResourceName parts0,
    tracer.Tag ext.TargetHost (TagValue.str host),
    tracer.Tag ext.TargetPort (TagValue.str port),
    tracer.Tag "out.db" (TagValue.str db),
    tracer.Tag "redis.raw_command" (TagValue.str raw),
    tracer.Tag "redis.args_length" (TagValue.str (Itoa length))]
  let opts :=
    if !Float64.IsNaN rate then
      opts ++ [tracer.Tag ext.EventSampleRate (TagValue.num rate)]
    else opts
  let r := tracer.StartSpanFromContext t ctx "redis.command" opts
  pure (r.1, r.2.2, none)

/-- The tag map that `beforeUnit` gives the span it starts. -/
def hookTags (serviceName parts0 host port db raw : String) (length : Int)
    (rate : Float64) : Tags :=
  let base : Tags := [
    ("redis.args_length", TagValue.str (Itoa length)),
    ("redis.raw_command", TagValue.str raw),
    ("out.db", TagValue.str db),
    (ext.TargetPort, TagValue.str port),
    (ext.TargetHost, TagValue.str host),
    (ext.ResourceName, TagValue.str parts0),
    (ext.ServiceName, TagValue.str serviceName),
    (ext.SpanType, TagValue.str ext.SpanTypeRedis)]
  if Float64.IsNaN rate then base else (ext.EventSampleRate, TagValue.num rate) :: base

/-- The span that `beforeUnit` starts. -/
def unitSpan (serviceName host port db raw : String) (rate : Float64)
    (parent : Option Nat) : Span :=
  { operationName := "redis.command",
    parent := parent,
    tags := hookTags serviceName (beforeFirstSpace raw) host port db raw
      (((Split raw ' ').length : Int) - 1) rate,
    finished := false }

/-- The call `r`, made on tracer state `t`, returned normally with a nil error,
and the span it started (its identifier is the next free one of `t`) carries
the raw command `raw`, the resource name `res` and the argument count `args`. -/
def StartedWith (t : Tracer) (r : Option (Tracer × Context × error))
    (raw res args : String) : Prop :=
  ∃ t' ctx', r = some (t', ctx', none) ∧
    t'.tag t.spans.length "redis.raw_command" = some (TagValue.str raw) ∧
    t'.tag t.spans.length ext.ResourceName = some (TagValue.str res) ∧
    t'.tag t.spans.length "redis.args_length" = some (TagValue.str args)

/-- The common body of the two `AfterProcess` methods, which do not read the hook. -/
def afterUnit (t : Tracer) (ctx : Context) (cmd : redis.Cmder) : Tracer × error :=
  let span := (tracer.SpanFromContext ctx).1
  let finishOpts : List ddtrace.FinishOption := []
  let err := cmd.err
  let finishOpts := if err ≠ redis.Nil then finishOpts ++ [tracer.WithError err] else finishOpts
  (tracer.Finish t span finishOpts, err)

/-- The common body of the two `AfterProcessPipeline` methods. -/
def afterBatch (t : Tracer) (ctx : Context) (cmds : List redis.Cmder) : Tracer × error :=
  let span := (tracer.SpanFromContext ctx).1
  let t := tracer.SetTag t span ext.ResourceName (TagValue.str (commandsToString cmds))
  let t := tracer.SetTag t span "redis.pipeline_length" (TagValue.str (Itoa (cmds.length : Int)))
  let t := tracer.Finish t span []
  (t, none)

/-- The newline-joined text of a batch, in the spec's words: each command's
string form followed by a newline, in batch order. -/
def newlineJoined : List redis.Cmder → String
  | [] => ""
  | c :: cs => (c.str ++ "\n") ++ newlineJoined cs

/-- Span `id` is a span of tracer state `t` that is not finished yet. -/
def Tracer.Unfinished (t : Tracer) (id : Nat) : Prop :=
  ∃ sp, t.spans[id]? = some sp ∧ sp.finished = false

/-- Span `id` is a span of tracer state `t` that is finished. -/
def Tracer.Finished (t : Tracer) (id : Nat) : Prop :=
  ∃ sp, t.spans[id]? = some sp ∧ sp.finished = true

/-- Tracer state `t'` is `t` after exactly one `Finish` of span `id`: the
list of finished spans gained the one entry `id`, span `id` is now finished,
no span was started, and no span other than `id` was changed. -/
def FinishesOne (t t' : Tracer) (id : Nat) : Prop :=
  t'.finished = t.finished ++ [id] ∧ t'.Finished id ∧
    t'.spans.length = t.spans.length ∧
    ∀ i, i ≠ id → t'.spans[i]? = t.spans[i]?

/-- One intercepted unit on tracer state `t`: the `Before` call returned
normally, started exactly one span (appended to the spans of `t`, so its
identifier is `t.spans.length`, and not finished), finished none and returned
a context carrying the new span; the `After` call, given that context on the
state that `Before` returned, and more generally on any tracer state in which
that span is still unfinished, finishes exactly that span exactly once and
touches no other span; and an `After` call repeated on the state so reached
changes nothing. -/
def OneSpanPerUnit (t : Tracer) (before : Option (Tracer × Context × error))
    (after : Tracer → Context → Tracer × error) : Prop :=
  ∃ sp t1 ctx1 e, before = some (t1, ctx1, e) ∧
    t1.spans = t.spans ++ [sp] ∧ sp.finished = false ∧ t1.finished = t.finished ∧
    ctx1.span = some t.spans.length ∧
    FinishesOne t1 (after t1 ctx1).1 t.spans.length ∧
    (∀ tm : Tracer, tm.Unfinished t.spans.length →
      FinishesOne tm (after tm ctx1).1 t.spans.length ∧
      (after (after tm ctx1).1 ctx1).1 = (after tm ctx1).1)

/-- The unit whose `Before` call is `before` (made on tracer state `t`) and whose
`After` call is `after` (made with the state and context that `before` returned):
`before` returned normally, `after` finished the span that `before` started, and
the finished span's error tag is `tag` (`none`: unpopulated). -/
def FinishedWithError (t : Tracer) (before : Option (Tracer × Context × error))
    (after : Tracer → Context → Tracer × error) (tag : Option TagValue) : Prop :=
  ∃ t1 ctx1, before = some (t1, ctx1, none) ∧
    (after t1 ctx1).1.finished = t.finished ++ [t.spans.length] ∧
    (after t1 ctx1).1.tag t.spans.length ext.Error = tag

/-- The batch whose `Before` call is `before` (made on tracer state `t`) and
whose `After` call is `after`: `before` returned normally and started a span
with resource name `res0`; after `after` the span is finished, its resource
name is `res` and its `redis.pipeline_length` tag is `len`. -/
def BatchFinishedWith (t : Tracer) (before : Option (Tracer × Context × error))
    (after : Tracer → Context → Tracer × error) (res0 res len : String) : Prop :=
  ∃ t1 ctx1, before = some (t1, ctx1, none) ∧
    t1.tag t.spans.length ext.ResourceName = some (TagValue.str res0) ∧
    (after t1 ctx1).1.finished = t.finished ++ [t.spans.length] ∧
    (after t1 ctx1).1.tag t.spans.length ext.ResourceName = some (TagValue.str res) ∧
    (after t1 ctx1).1.tag t.spans.length "redis.pipeline_length" = some (TagValue.str len)

/-- The call `r`, made on tracer state `t`, returned normally with a nil error,
and on the span it started the tag `k` reads `v` (`none`: the tag is absent). -/
def StartedTag (t : Tracer) (r : Option (Tracer × Context × error)) (k : String)
    (v : Option TagValue) : Prop :=
  ∃ t' ctx', r = some (t', ctx', none) ∧ t'.tag t.spans.length k = v

/-- On every span that the v8 hook `h` starts, for a single command or for a
batch, the analytics sample-rate tag reads `v` (`none`: the tag is absent). -/
def v8.Hook.SampleRateTag (h : v8.Hook) (v : Option TagValue) : Prop :=
  ∀ (t : Tracer) (ctx : Context) (cmd : redis.Cmder) (cmds : List redis.Cmder),
    StartedTag t (h.BeforeProcess t ctx cmd) ext.EventSampleRate v ∧
    StartedTag t (h.BeforeProcessPipeline t ctx cmds) ext.EventSampleRate v

/-- The sample-rate tag the spec expects after `WithAnalyticsRate(r)`: the rate
itself when it is a number within `[0, 1]`, no tag otherwise. -/
def expectedRateTag : Float64 → Option TagValue
  | Float64.fin q => if 0 ≤ q ∧ q ≤ 1 then some (TagValue.num (Float64.fin q)) else none
  | _ => none


/-! ## Lemmas -/

theorem Tags.get_set (m : Tags) (k k' : String) (v : TagValue) :
    (m.set k v).get k' = if k' = k then some v else m.get k' := by
  unfold Tags.set Tags.get
  by_cases h : k' = k
  · subst h; simp
  · have h' : ¬ k = k' := fun e => h e.symm
    simp only [List.find?_cons, h, h', if_false, decide_False]
    congr 1
    rw [List.find?_filter]
    congr 1
    funext kv
    by_cases hk : kv.1 = k'
    · have : ¬ kv.1 = k := by rw [hk]; exact h
      simp [hk, this, h]
    · simp [hk]

theorem hookTags_get_resource (sn p0 host port db raw : String) (n : Int) (rate : Float64) :
    (hookTags sn p0 host port db raw n rate).get ext.ResourceName = some (TagValue.str p0) := by
  unfold hookTags; cases Float64.IsNaN rate <;> rfl

theorem hookTags_get_raw (sn p0 host port db raw : String) (n : Int) (rate : Float64) :
    (hookTags sn p0 host port db raw n rate).get "redis.raw_command" = some (TagValue.str raw) := by
  unfold hookTags; cases Float64.IsNaN rate <;> rfl

theorem hookTags_get_args (sn p0 host port db raw : String) (n : Int) (rate : Float64) :
    (hookTags sn p0 host port db raw n rate).get "redis.args_length"
      = some (TagValue.str (Itoa n)) := by
  unfold hookTags; cases Float64.IsNaN rate <;> rfl

theorem hookTags_get_service (sn p0 host port db raw : String) (n : Int) (rate : Float64) :
    (hookTags sn p0 host port db raw n rate).get ext.ServiceName = some (TagValue.str sn) := by
  unfold hookTags; cases Float64.IsNaN rate <;> rfl

theorem hookTags_get_host (sn p0 host port db raw : String) (n : Int) (rate : Float64) :
    (hookTags sn p0 host port db raw n rate).get ext.TargetHost = some (TagValue.str host) := by
  unfold hookTags; cases Float64.IsNaN rate <;> rfl

theorem hookTags_get_port (sn p0 host port db raw : String) (n : Int) (rate : Float64) :
    (hookTags sn p0 host port db raw n rate).get ext.TargetPort = some (TagValue.str port) := by
  unfold hookTags; cases Float64.IsNaN rate <;> rfl

theorem hookTags_get_db (sn p0 host port db raw : String) (n : Int) (rate : Float64) :
    (hookTags sn p0 host port db raw n rate).get "out.db" = some (TagValue.str db) := by
  unfold hookTags; cases Float64.IsNaN rate <;> rfl

theorem hookTags_get_error (sn p0 host port db raw : String) (n : Int) (rate : Float64) :
    (hookTags sn p0 host port db raw n rate).get ext.Error = none := by
  unfold hookTags; cases Float64.IsNaN rate <;> rfl

theorem hookTags_get_rate (sn p0 host port db raw : String) (n : Int) (rate : Float64) :
    (hookTags sn p0 host port db raw n rate).get ext.EventSampleRate
      = if Float64.IsNaN rate then none else some (TagValue.num rate) := by
  unfold hookTags; cases Float64.IsNaN rate <;> rfl

/-! ### `strings.Split` -/

theorem splitLoop_cons (sep : Char) (cur l : List Char) :
    ∃ tl, splitLoop sep cur l = (cur ++ l.takeWhile (fun c => c ≠ sep)) :: tl := by
  induction l generalizing cur with
  | nil => exact ⟨[], by simp [splitLoop]⟩
  | cons c cs ih =>
    by_cases h : c = sep
    · exact ⟨splitLoop sep [] cs, by simp [splitLoop, h]⟩
    · obtain ⟨tl, htl⟩ := ih (cur ++ [c])
      exact ⟨tl, by simp [splitLoop, h, htl]⟩

theorem splitLoop_length (sep : Char) (cur l : List Char) :
    (splitLoop sep cur l).length = l.count sep + 1 := by
  induction l generalizing cur with
  | nil => simp [splitLoop]
  | cons c cs ih =>
    by_cases h : c = sep
    · simp [splitLoop, h, ih]
    · simp [splitLoop, h, ih, List.count_cons]

theorem Split_first (s : String) :
    (Split s ' ')[0]? = some (beforeFirstSpace s) := by
  obtain ⟨tl, h⟩ := splitLoop_cons ' ' [] s.data
  simp [Split, h, beforeFirstSpace]

theorem Split_length (s : String) (sep : Char) :
    (Split s sep).length = s.data.count sep + 1 := by
  simp [Split, splitLoop_length]

theorem splitLoop_word (sep : Char) (cur w rest : List Char) (hw : sep ∉ w) :
    splitLoop sep cur (w ++ rest) = splitLoop sep (cur ++ w) rest := by
  induction w generalizing cur with
  | nil => simp
  | cons c cs ih =>
    have hc : c ≠ sep := fun e => hw (by simp [e])
    have hcs : sep ∉ cs := fun e => hw (by simp [e])
    simp [splitLoop, hc, ih _ hcs]

theorem tokensLoop_word (cur w rest : List Char) (hw : ∀ c ∈ w, isWhitespace c = false) :
    tokensLoop cur (w ++ rest) = tokensLoop (cur ++ w) rest := by
  induction w generalizing cur with
  | nil => simp
  | cons c cs ih =>
    have hc : isWhitespace c = false := hw c (by simp)
    have hcs : ∀ d ∈ cs, isWhitespace d = false := fun d hd => hw d (by simp [hd])
    simp [tokensLoop, hc, ih _ hcs]

theorem space_not_mem_of_noWhitespace (w : List Char)
    (hw : ∀ c ∈ w, isWhitespace c = false) : ' ' ∉ w := by
  intro h
  have := hw ' ' h
  simp [isWhitespace] at this

/-- A command string made of non-empty whitespace-free words joined by single
spaces is split by `strings.Split` into exactly those words, and its
whitespace-delimited tokens are the same words. -/
theorem split_tokens_joinSpaces (toks : List String) (hne : toks ≠ [])
    (hw : ∀ w ∈ toks, w ≠ "" ∧ ∀ c ∈ w.data, isWhitespace c = false) :
    Split (joinSpaces toks) ' ' = toks ∧ whitespaceTokens (joinSpaces toks) = toks := by
  induction toks with
  | nil => exact absurd rfl hne
  | cons w ws ih =>
    have hwd := (hw w (by simp)).2
    have hwn : w.data ≠ [] := fun e => (hw w (by simp)).1 (String.ext e)
    have hsp := space_not_mem_of_noWhitespace w.data hwd
    cases ws with
    | nil =>
      have h1 := splitLoop_word ' ' [] w.data [] hsp
      have h2 := tokensLoop_word [] w.data [] hwd
      simp only [List.append_nil, List.nil_append] at h1 h2
      simp [joinSpaces, Split, whitespaceTokens, h1, h2, splitLoop, tokensLoop, hwn]
    | cons w2 ws2 =>
      have ih' := ih (by simp) (fun v hv => hw v (by simp [hv]))
      have h1 := splitLoop_word ' ' [] w.data (' ' :: (joinSpaces (w2 :: ws2)).data) hsp
      have h2 := tokensLoop_word [] w.data (' ' :: (joinSpaces (w2 :: ws2)).data) hwd
      simp only [List.nil_append] at h1 h2
      have hd : (joinSpaces (w :: w2 :: ws2)).data
          = w.data ++ ' ' :: (joinSpaces (w2 :: ws2)).data := by
        simp [joinSpaces, String.data_append]
      have hsw : isWhitespace ' ' = true := by decide
      constructor
      · have := ih'.1
        unfold Split at this ⊢
        rw [hd, h1]
        simp [splitLoop, this]
      · have := ih'.2
        unfold whitespaceTokens at this ⊢
        rw [hd, h2]
        simp [tokensLoop, hsw, hwn, this]

theorem tag_new_span (spans : List Span) (fin : List Nat) (sp : Span) (k : String) :
    Tracer.tag { spans := spans ++ [sp], finished := fin } spans.length k = sp.tags.get k := by
  simp [Tracer.tag]

theorem beforeUnit_eq (sn host port db raw : String) (rate : Float64) (t : Tracer)
    (ctx : Context) :
    beforeUnit sn host port db raw rate t ctx
      = some ({ spans := t.spans ++ [unitSpan sn host port db raw rate ctx.span],
                finished := t.finished },
              { span := some t.spans.length }, none) := by
  obtain ⟨s⟩ := ctx
  simp only [beforeUnit, Split_first, Option.bind_eq_bind, Option.some_bind, Option.pure_def]
  cases hr : Float64.IsNaN rate <;> cases s <;>
    simp [hr, tracer.StartSpanFromContext, tracer.SpanFromContext, tracer.StartSpan, unitSpan,
      hookTags, tracer.ChildOf, tracer.Tag, tracer.SpanType, tracer.ServiceName,
      tracer.ResourceName, Tags.set, Tags.get, ext.SpanType, ext.ServiceName,
      ext.ResourceName, ext.TargetHost, ext.TargetPort, ext.EventSampleRate, List.filter]

theorem v8_BeforeProcess_eq (h : v8.Hook) (t : Tracer) (ctx : Context) (cmd : redis.Cmder) :
    h.BeforeProcess t ctx cmd
      = beforeUnit h.cfg.serviceName h.cfg.host h.cfg.port h.cfg.db cmd.str
          h.cfg.analyticsRate t ctx := rfl

theorem v8_BeforeProcessPipeline_eq (h : v8.Hook) (t : Tracer) (ctx : Context)
    (cmds : List redis.Cmder) :
    h.BeforeProcessPipeline t ctx cmds
      = beforeUnit h.cfg.serviceName h.cfg.host h.cfg.port h.cfg.db (commandsToString cmds)
          h.cfg.analyticsRate t ctx := rfl

theorem v7_BeforeProcess_eq (h : v7.hook) (t : Tracer) (ctx : Context) (cmd : redis.Cmder) :
    h.BeforeProcess t ctx cmd
      = beforeUnit h.tc.params.config.serviceName h.tc.params.host h.tc.params.port
          h.tc.params.db cmd.str h.tc.params.config.analyticsRate t ctx := rfl

theorem v7_BeforeProcessPipeline_eq (h : v7.hook) (t : Tracer) (ctx : Context)
    (cmds : List redis.Cmder) :
    h.BeforeProcessPipeline t ctx cmds
      = beforeUnit h.tc.params.config.serviceName h.tc.params.host h.tc.params.port
          h.tc.params.db (commandsToString cmds) h.tc.params.config.analyticsRate t ctx := rfl

theorem beforeUnit_startedWith (sn host port db raw : String) (rate : Float64) (t : Tracer)
    (ctx : Context) :
    StartedWith t (beforeUnit sn host port db raw rate t ctx) raw (beforeFirstSpace raw)
      (Itoa (((Split raw ' ').length : Int) - 1)) := by
  refine ⟨_, _, beforeUnit_eq sn host port db raw rate t ctx, ?_, ?_, ?_⟩
  · rw [tag_new_span]; exact hookTags_get_raw ..
  · rw [tag_new_span]; exact hookTags_get_resource ..
  · rw [tag_new_span]; exact hookTags_get_args ..


/-! ## Finishing: `AfterProcess` and `AfterProcessPipeline` -/

theorem v8_AfterProcess_eq (h : v8.Hook) (t : Tracer) (ctx : Context) (cmd : redis.Cmder) :
    h.AfterProcess t ctx cmd = afterUnit t ctx cmd := rfl

theorem v7_AfterProcess_eq (h : v7.hook) (t : Tracer) (ctx : Context) (cmd : redis.Cmder) :
    h.AfterProcess t ctx cmd = afterUnit t ctx cmd := rfl

theorem v8_AfterProcessPipeline_eq (h : v8.Hook) (t : Tracer) (ctx : Context)
    (cmds : List redis.Cmder) : h.AfterProcessPipeline t ctx cmds = afterBatch t ctx cmds := rfl

theorem v7_AfterProcessPipeline_eq (h : v7.hook) (t : Tracer) (ctx : Context)
    (cmds : List redis.Cmder) : h.AfterProcessPipeline t ctx cmds = afterBatch t ctx cmds := rfl

theorem SetTag_unfinished (k : String) (v : TagValue) (sp : Span) (hf : sp.finished = false) :
    Span.SetTag k v sp = sp.withTag k v := by
  simp [Span.SetTag, hf]

theorem SetTag_finished_flag (k : String) (v : TagValue) (sp : Span) :
    (Span.SetTag k v sp).finished = sp.finished := by
  unfold Span.SetTag
  split <;> simp [Span.withTag]

/-- A finished span ignores `SetTag`: the tracer state is unchanged. -/
theorem SetTag_of_finished (t : Tracer) (id : Nat) (k : String) (v : TagValue) (sp : Span)
    (h : t.spans[id]? = some sp) (hf : sp.finished = true) :
    tracer.SetTag t (SpanRef.live id) k v = t := by
  have hl : t.spans.modify (Span.SetTag k v) id = t.spans := by
    apply List.ext_getElem?
    intro i
    rw [List.getElem?_modify]
    by_cases hi : id = i
    · subst hi
      simp [h, Span.SetTag, hf]
    · simp [hi]
  cases t
  simp only [tracer.SetTag] at hl ⊢
  rw [hl]

/-- A finished span ignores `Finish`: the tracer state is unchanged. -/
theorem Finish_of_finished (t : Tracer) (id : Nat) (opts : List ddtrace.FinishOption)
    (sp : Span) (h : t.spans[id]? = some sp) (hf : sp.finished = true) :
    tracer.Finish t (SpanRef.live id) opts = t := by
  unfold tracer.Finish
  cases hE : (opts.foldl (fun (c : ddtrace.FinishConfig) (o : ddtrace.FinishOption) => o c)
      { Error := none }).Error with
  | none => simp [hE, h, hf]
  | some e => simp [hE, SetTag_of_finished t id _ _ sp h hf, h, hf]

/-- The tracer after `AfterProcess` on a context carrying the unfinished span
`id`, when the command's error is present and is not `redis.Nil`. -/
theorem afterUnit_error (t : Tracer) (id : Nat) (cmd : redis.Cmder) (e : GoError) (sp : Span)
    (h : t.spans[id]? = some sp) (hf : sp.finished = false)
    (he : cmd.err = some e) (hn : cmd.err ≠ redis.Nil) :
    (afterUnit t { span := some id } cmd).1
      = { spans := (t.spans.modify (Span.SetTag ext.Error (TagValue.err e)) id).modify
            Span.markFinished id,
          finished := t.finished ++ [id] } := by
  rw [he] at hn
  simp [afterUnit, tracer.SpanFromContext, tracer.Finish, tracer.SetTag, tracer.WithError, hn,
    he, h, SetTag_finished_flag, hf]

/-- The tracer after `AfterProcess` on a context carrying the unfinished span
`id`, when the command's error is absent or is `redis.Nil`. -/
theorem afterUnit_noError (t : Tracer) (id : Nat) (cmd : redis.Cmder) (sp : Span)
    (h : t.spans[id]? = some sp) (hf : sp.finished = false)
    (he : cmd.err = none ∨ cmd.err = redis.Nil) :
    (afterUnit t { span := some id } cmd).1
      = { spans := t.spans.modify Span.markFinished id, finished := t.finished ++ [id] } := by
  rcases he with he | he
  · have hn : ¬ (none : error) = redis.Nil := by simp [redis.Nil]
    simp [afterUnit, tracer.SpanFromContext, tracer.Finish, tracer.WithError, he, hn, h, hf]
  · simp [afterUnit, tracer.SpanFromContext, tracer.Finish, he, h, hf]

/-- The tracer after `AfterProcessPipeline` on a context carrying the
unfinished span `id`. -/
theorem afterBatch_live (t : Tracer) (id : Nat) (cmds : List redis.Cmder) (sp : Span)
    (h : t.spans[id]? = some sp) (hf : sp.finished = false) :
    (afterBatch t { span := some id } cmds).1
      = { spans := ((t.spans.modify
            (Span.SetTag ext.ResourceName (TagValue.str (commandsToString cmds))) id).modify
            (Span.SetTag "redis.pipeline_length" (TagValue.str (Itoa (cmds.length : Int))))
              id).modify Span.markFinished id,
          finished := t.finished ++ [id] } := by
  simp [afterBatch, tracer.SpanFromContext, tracer.Finish, tracer.SetTag, h,
    SetTag_finished_flag, hf]

/-- On a context carrying a finished span, `AfterProcess` changes nothing. -/
theorem afterUnit_of_finished (t : Tracer) (id : Nat) (cmd : redis.Cmder) (sp : Span)
    (h : t.spans[id]? = some sp) (hf : sp.finished = true) :
    (afterUnit t { span := some id } cmd).1 = t := by
  simp [afterUnit, tracer.SpanFromContext, Finish_of_finished t id _ sp h hf]

/-- On a context carrying a finished span, `AfterProcessPipeline` changes nothing. -/
theorem afterBatch_of_finished (t : Tracer) (id : Nat) (cmds : List redis.Cmder) (sp : Span)
    (h : t.spans[id]? = some sp) (hf : sp.finished = true) :
    (afterBatch t { span := some id } cmds).1 = t := by
  simp [afterBatch, tracer.SpanFromContext, SetTag_of_finished t id _ _ sp h hf,
    Finish_of_finished t id _ sp h hf]

theorem err_cases (err : error) :
    (∃ e, err = some e ∧ err ≠ redis.Nil) ∨ (err = none ∨ err = redis.Nil) := by
  by_cases h : err = redis.Nil
  · exact Or.inr (Or.inr h)
  · cases err with
    | none => exact Or.inr (Or.inl rfl)
    | some e => exact Or.inl ⟨e, rfl, h⟩

theorem finished_modify_markFinished (l : List Span) (fin : List Nat) (id : Nat) (sp : Span)
    (h : l[id]? = some sp) :
    Tracer.Finished { spans := l.modify Span.markFinished id, finished := fin } id :=
  ⟨sp.markFinished, by simp [h], rfl⟩

theorem afterUnit_finishesOne (t : Tracer) (id : Nat) (cmd : redis.Cmder)
    (hu : t.Unfinished id) :
    FinishesOne t (afterUnit t { span := some id } cmd).1 id := by
  obtain ⟨sp, h, hf⟩ := hu
  rcases err_cases cmd.err with ⟨e, he, hn⟩ | he
  · rw [afterUnit_error t id cmd e sp h hf he hn]
    refine ⟨rfl, finished_modify_markFinished _ _ id
      (Span.SetTag ext.Error (TagValue.err e) sp) (by simp [h]), by simp, fun i hi => ?_⟩
    simp [List.getElem?_modify_ne _ _ (Ne.symm hi)]
  · rw [afterUnit_noError t id cmd sp h hf he]
    refine ⟨rfl, finished_modify_markFinished _ _ id sp h, by simp, fun i hi => ?_⟩
    simp [List.getElem?_modify_ne _ _ (Ne.symm hi)]

theorem afterBatch_finishesOne (t : Tracer) (id : Nat) (cmds : List redis.Cmder)
    (hu : t.Unfinished id) :
    FinishesOne t (afterBatch t { span := some id } cmds).1 id := by
  obtain ⟨sp, h, hf⟩ := hu
  rw [afterBatch_live t id cmds sp h hf]
  refine ⟨rfl, finished_modify_markFinished _ _ id
    (Span.SetTag "redis.pipeline_length" (TagValue.str (Itoa (cmds.length : Int)))
      (Span.SetTag ext.ResourceName (TagValue.str (commandsToString cmds)) sp))
    (by simp [h]), by simp, fun i hi => ?_⟩
  simp [List.getElem?_modify_ne _ _ (Ne.symm hi)]

/-- After a first `AfterProcess` on an unfinished span, `AfterProcess` with any
command changes nothing. -/
theorem afterUnit_twice (t : Tracer) (id : Nat) (cmd cmd2 : redis.Cmder)
    (hu : t.Unfinished id) :
    (afterUnit (afterUnit t { span := some id } cmd).1 { span := some id } cmd2).1
      = (afterUnit t { span := some id } cmd).1 := by
  obtain ⟨sp, h, hf⟩ := (afterUnit_finishesOne t id cmd hu).2.1
  exact afterUnit_of_finished _ id cmd2 sp h hf

/-- After a first `AfterProcessPipeline` on an unfinished span, `AfterProcessPipeline`
with any batch changes nothing. -/
theorem afterBatch_twice (t : Tracer) (id : Nat) (cmds cmds2 : List redis.Cmder)
    (hu : t.Unfinished id) :
    (afterBatch (afterBatch t { span := some id } cmds).1 { span := some id } cmds2).1
      = (afterBatch t { span := some id } cmds).1 := by
  obtain ⟨sp, h, hf⟩ := (afterBatch_finishesOne t id cmds hu).2.1
  exact afterBatch_of_finished _ id cmds2 sp h hf

/-- The span that `beforeUnit` starts is an unfinished span of the state it returns. -/
theorem unitSpan_unfinished (sn host port db raw : String) (rate : Float64) (t : Tracer)
    (parent : Option Nat) :
    Tracer.Unfinished
      { spans := t.spans ++ [unitSpan sn host port db raw rate parent], finished := t.finished }
      t.spans.length :=
  ⟨unitSpan sn host port db raw rate parent, by simp, rfl⟩

theorem beforeUnit_oneSpanPerUnit (sn host port db raw : String) (rate : Float64) (t : Tracer)
    (ctx : Context) (after : Tracer → Context → Tracer × error)
    (hafter : ∀ tm id, Tracer.Unfinished tm id →
      FinishesOne tm (after tm { span := some id }).1 id ∧
      (after (after tm { span := some id }).1 { span := some id }).1
        = (after tm { span := some id }).1) :
    OneSpanPerUnit t (beforeUnit sn host port db raw rate t ctx) after :=
  ⟨_, _, _, _, beforeUnit_eq sn host port db raw rate t ctx, rfl, rfl, rfl, rfl,
    (hafter _ _ (unitSpan_unfinished sn host port db raw rate t ctx.span)).1,
    fun tm hu => hafter tm t.spans.length hu⟩

theorem tag_modify_new (spans : List Span) (fin : List Nat) (sp : Span) (f : Span → Span)
    (k : String) :
    Tracer.tag { spans := (spans ++ [sp]).modify f spans.length, finished := fin }
      spans.length k = (f sp).tags.get k := by
  simp [Tracer.tag]

theorem beforeUnit_finishedWithError (sn host port db raw : String) (rate : Float64)
    (t : Tracer) (ctx : Context) (cmd : redis.Cmder) :
    FinishedWithError t (beforeUnit sn host port db raw rate t ctx)
      (fun tm c => afterUnit tm c cmd)
      (if cmd.err ≠ none ∧ cmd.err ≠ redis.Nil then cmd.err.map TagValue.err else none) := by
  have hu := unitSpan_unfinished sn host port db raw rate t ctx.span
  refine ⟨_, _, beforeUnit_eq sn host port db raw rate t ctx, ?_, ?_⟩
  · exact (afterUnit_finishesOne _ _ cmd hu).1
  · obtain ⟨sp, h, hf⟩ := hu
    have hsp : sp = unitSpan sn host port db raw rate ctx.span := by
      simpa using h.symm
    rcases err_cases cmd.err with ⟨e, he, hn⟩ | he
    · dsimp only
      rw [afterUnit_error _ _ cmd e sp h hf he hn, if_pos ⟨by simp [he], hn⟩, he]
      simp [Tracer.tag, Tags.get_set, Span.SetTag, Span.withTag, Span.markFinished, unitSpan]
    · dsimp only
      rw [afterUnit_noError _ _ cmd sp h hf he]
      have : ¬ (cmd.err ≠ none ∧ cmd.err ≠ redis.Nil) := by
        rcases he with he | he <;> simp [he]
      rw [if_neg this]
      simp only [Tracer.tag, List.getElem?_modify_eq, List.getElem?_concat_length,
        Option.map_eq_map, Option.map_some', Option.some_bind]
      exact hookTags_get_error ..

theorem commandsToString_foldl (acc : String) (cmds : List redis.Cmder) :
    cmds.foldl (fun b cmd => (b ++ cmd.str) ++ "\n") acc = acc ++ newlineJoined cmds := by
  induction cmds generalizing acc with
  | nil => simp [newlineJoined]
  | cons c cs ih =>
    simp only [List.foldl_cons, newlineJoined]
    rw [ih]
    simp [String.append_assoc]

theorem commandsToString_eq (cmds : List redis.Cmder) :
    commandsToString cmds = newlineJoined cmds := by
  simp [commandsToString, commandsToString_foldl]

theorem beforeUnit_batchFinishedWith (sn host port db raw : String) (rate : Float64)
    (t : Tracer) (ctx : Context) (cmds : List redis.Cmder) :
    BatchFinishedWith t (beforeUnit sn host port db raw rate t ctx)
      (fun tm c => afterBatch tm c cmds)
      (beforeFirstSpace raw) (commandsToString cmds) (Itoa (cmds.length : Int)) := by
  have hu := unitSpan_unfinished sn host port db raw rate t ctx.span
  refine ⟨_, _, beforeUnit_eq sn host port db raw rate t ctx, ?_, ?_, ?_, ?_⟩
  · rw [tag_new_span]; exact hookTags_get_resource ..
  · exact (afterBatch_finishesOne _ _ cmds hu).1
  · obtain ⟨sp, h, hf⟩ := hu
    dsimp only
    rw [afterBatch_live _ _ cmds sp h hf]
    simp [Tracer.tag, Tags.get_set, ext.ResourceName, Span.SetTag, Span.withTag,
      Span.markFinished, unitSpan]
  · obtain ⟨sp, h, hf⟩ := hu
    dsimp only
    rw [afterBatch_live _ _ cmds sp h hf]
    simp [Tracer.tag, Tags.get_set, Span.SetTag, Span.withTag, Span.markFinished, unitSpan]


/-! ### `net.SplitHostPort` -/

theorem IndexByteString_not_mem (s : List Char) (c : Char) (h : c ∉ s) :
    net.IndexByteString s c = none := by
  induction s with
  | nil => rfl
  | cons x xs ih =>
    have hx : x ≠ c := fun e => h (by simp [e])
    have hxs : c ∉ xs := fun e => h (by simp [e])
    simp [net.IndexByteString, hx, ih hxs]

theorem IndexByteString_append (a b : List Char) (c : Char) (h : c ∉ a) :
    net.IndexByteString (a ++ c :: b) c = some a.length := by
  induction a with
  | nil => simp [net.IndexByteString]
  | cons x xs ih =>
    have hx : x ≠ c := fun e => h (by simp [e])
    have hxs : c ∉ xs := fun e => h (by simp [e])
    simp [net.IndexByteString, hx, ih hxs]

theorem last_append (a b : List Char) (c : Char) (h : c ∉ b) :
    net.last (a ++ c :: b) c = some a.length := by
  have hr : c ∉ b.reverse := by simpa using h
  have := IndexByteString_append b.reverse a.reverse c hr
  unfold net.last
  rw [List.reverse_append, List.reverse_cons, List.append_assoc, List.singleton_append, this]
  simp

theorem last_not_mem (s : List Char) (c : Char) (h : c ∉ s) : net.last s c = none := by
  unfold net.last
  rw [IndexByteString_not_mem _ _ (by simpa using h)]
  rfl

/-- An address `host:port` whose host and port contain no colon and no square
bracket splits into that host and that port. -/
theorem SplitHostPort_host_port (host port : String)
    (hh : ∀ c ∈ host.data, c ≠ ':' ∧ c ≠ '[' ∧ c ≠ ']')
    (hp : ∀ c ∈ port.data, c ≠ ':' ∧ c ≠ '[' ∧ c ≠ ']') :
    net.SplitHostPort ((host ++ ":") ++ port) = (host, port, none) := by
  have hd : ((host ++ ":") ++ port).data = host.data ++ ':' :: port.data := by
    simp [String.data_append]
  have hlast : net.last (host.data ++ ':' :: port.data) ':' = some host.data.length :=
    last_append _ _ _ (fun hm => (hp _ hm).1 rfl)
  have hhead : (host.data ++ ':' :: port.data).head? ≠ some '[' := by
    cases hhd : host.data with
    | nil => simp
    | cons x xs =>
      have := (hh x (by simp [hhd])).2.1
      simpa using this
  have hcolon : net.IndexByteString host.data ':' = none :=
    IndexByteString_not_mem _ _ (fun hm => (hh _ hm).1 rfl)
  have hopen : net.IndexByteString (host.data ++ ':' :: port.data) '[' = none :=
    IndexByteString_not_mem _ _ (by
      intro hm
      rcases List.mem_append.1 hm with hm | hm
      · exact (hh _ hm).2.1 rfl
      · rcases List.mem_cons.1 hm with hm | hm
        · exact absurd hm (by decide)
        · exact (hp _ hm).2.1 rfl)
  have hclose : net.IndexByteString (host.data ++ ':' :: port.data) ']' = none :=
    IndexByteString_not_mem _ _ (by
      intro hm
      rcases List.mem_append.1 hm with hm | hm
      · exact (hh _ hm).2.2 rfl
      · rcases List.mem_cons.1 hm with hm | hm
        · exact absurd hm (by decide)
        · exact (hp _ hm).2.2 rfl)
  have hdrop : (host.data ++ ':' :: port.data).drop (host.data.length + 1) = port.data := by
    have e : host.data ++ ':' :: port.data = (host.data ++ [':']) ++ port.data := by simp
    rw [e]
    exact List.drop_left' (by simp)
  unfold net.SplitHostPort
  simp only [hd, hlast, hhead, if_false, List.take_left', hcolon, Option.isSome_none,
    Bool.false_eq_true, net.splitTail, List.drop_zero, hopen, hclose, hdrop]

/-- An address without a colon does not split: `SplitHostPort` reports a missing port. -/
theorem SplitHostPort_no_colon (addr : String) (h : ':' ∉ addr.data) :
    net.SplitHostPort addr = net.addrErr addr "missing port in address" := by
  unfold net.SplitHostPort
  simp [last_not_mem _ _ h]


/-! ### Reading a tag of the span a `Before` call started -/

theorem beforeUnit_startedTag (sn host port db raw : String) (rate : Float64) (t : Tracer)
    (ctx : Context) (k : String) :
    StartedTag t (beforeUnit sn host port db raw rate t ctx) k
      ((hookTags sn (beforeFirstSpace raw) host port db raw
        (((Split raw ' ').length : Int) - 1) rate).get k) :=
  ⟨_, _, beforeUnit_eq sn host port db raw rate t ctx, by rw [tag_new_span]; rfl⟩

theorem v8_sampleRateTag (h : v8.Hook) :
    h.SampleRateTag
      (if Float64.IsNaN h.cfg.analyticsRate then none
       else some (TagValue.num h.cfg.analyticsRate)) := by
  intro t ctx cmd cmds
  rw [v8_BeforeProcess_eq, v8_BeforeProcessPipeline_eq]
  constructor
  · have := beforeUnit_startedTag h.cfg.serviceName h.cfg.host h.cfg.port h.cfg.db cmd.str
      h.cfg.analyticsRate t ctx ext.EventSampleRate
    rwa [hookTags_get_rate] at this
  · have := beforeUnit_startedTag h.cfg.serviceName h.cfg.host h.cfg.port h.cfg.db
      (commandsToString cmds) h.cfg.analyticsRate t ctx ext.EventSampleRate
    rwa [hookTags_get_rate] at this

theorem NewHook_append (pre : List v8.ClientOption) (o : v8.ClientOption) :
    (v8.NewHook (pre ++ [o])).cfg = o (v8.NewHook pre).cfg := by
  simp [v8.NewHook, List.foldl_append]

theorem WithAnalyticsRate_rate (r : Float64) (cfg : v8.clientConfig) :
    (if Float64.IsNaN (v8.WithAnalyticsRate r cfg).analyticsRate then none
     else some (TagValue.num (v8.WithAnalyticsRate r cfg).analyticsRate)) = expectedRateTag r := by
  cases r with
  | NaN => simp [v8.WithAnalyticsRate, Float64.ge, Float64.le, Float64.IsNaN, expectedRateTag]
  | posInf => simp [v8.WithAnalyticsRate, Float64.ge, Float64.le, Float64.IsNaN, expectedRateTag]
  | negInf => simp [v8.WithAnalyticsRate, Float64.ge, Float64.le, Float64.IsNaN, expectedRateTag]
  | fin q =>
    by_cases h : 0 ≤ q ∧ q ≤ 1
    · simp [v8.WithAnalyticsRate, Float64.ge, Float64.le, Float64.IsNaN, expectedRateTag, h]
    · have h' : ¬ (0 ≤ q ∧ q ≤ 1) := h
      rw [not_and] at h
      simp only [v8.WithAnalyticsRate, Float64.ge, Float64.le, expectedRateTag, if_neg h']
      by_cases h0 : 0 ≤ q
      · simp [h0, h h0, Float64.IsNaN]
      · simp [h0, Float64.IsNaN]

theorem v7_startedTag (h : v7.hook) (t : Tracer) (ctx : Context) (cmd : redis.Cmder)
    (cmds : List redis.Cmder) (k : String) :
    StartedTag t (h.BeforeProcess t ctx cmd) k
      ((hookTags h.tc.params.config.serviceName (beforeFirstSpace cmd.str) h.tc.params.host
        h.tc.params.port h.tc.params.db cmd.str (((Split cmd.str ' ').length : Int) - 1)
        h.tc.params.config.analyticsRate).get k) ∧
    StartedTag t (h.BeforeProcessPipeline t ctx cmds) k
      ((hookTags h.tc.params.config.serviceName (beforeFirstSpace (commandsToString cmds))
        h.tc.params.host h.tc.params.port h.tc.params.db (commandsToString cmds)
        (((Split (commandsToString cmds) ' ').length : Int) - 1)
        h.tc.params.config.analyticsRate).get k) := by
  rw [v7_BeforeProcess_eq, v7_BeforeProcessPipeline_eq]
  exact ⟨beforeUnit_startedTag .., beforeUnit_startedTag ..⟩

theorem v8_startedTag (h : v8.Hook) (t : Tracer) (ctx : Context) (cmd : redis.Cmder)
    (cmds : List redis.Cmder) (k : String) :
    StartedTag t (h.BeforeProcess t ctx cmd) k
      ((hookTags h.cfg.serviceName (beforeFirstSpace cmd.str) h.cfg.host
        h.cfg.port h.cfg.db cmd.str (((Split cmd.str ' ').length : Int) - 1)
        h.cfg.analyticsRate).get k) ∧
    StartedTag t (h.BeforeProcessPipeline t ctx cmds) k
      ((hookTags h.cfg.serviceName (beforeFirstSpace (commandsToString cmds))
        h.cfg.host h.cfg.port h.cfg.db (commandsToString cmds)
        (((Split (commandsToString cmds) ' ').length : Int) - 1)
        h.cfg.analyticsRate).get k) := by
  rw [v8_BeforeProcess_eq, v8_BeforeProcessPipeline_eq]
  exact ⟨beforeUnit_startedTag .., beforeUnit_startedTag ..⟩

theorem WithRedisOptions_eq (opts : redis.Options) (cfg : v8.clientConfig) :
    v8.WithRedisOptions opts cfg
      = { cfg with
          host := if (net.SplitHostPort opts.Addr).2.2 ≠ none then v8.defaultHost
                  else (net.SplitHostPort opts.Addr).1,
          port := if (net.SplitHostPort opts.Addr).2.2 ≠ none then v8.defaultPort
                  else (net.SplitHostPort opts.Addr).2.1,
          db := Itoa opts.DB } := by
  unfold v8.WithRedisOptions
  by_cases h : (net.SplitHostPort opts.Addr).2.2 = none <;> simp [h]

theorem v7_WrapClient_params (defaults : v7.clientConfig → v7.clientConfig)
    (c : redis.Options) (opts : List v7.ClientOption) :
    (v7.WrapClient defaults c opts).params.host
        = (if (net.SplitHostPort c.Addr).2.2 ≠ none then c.Addr
           else (net.SplitHostPort c.Addr).1) ∧
    (v7.WrapClient defaults c opts).params.port
        = (if (net.SplitHostPort c.Addr).2.2 ≠ none then "6379"
           else (net.SplitHostPort c.Addr).2.1) := by
  unfold v7.WrapClient
  by_cases h : (net.SplitHostPort c.Addr).2.2 = none <;> simp [h]

/-! ## The model on the inputs of the tests -/

theorem Split_set_command :
    Split "set test_key test_value: " ' ' = ["set", "test_key", "test_value:", ""] := by decide

theorem Split_empty : Split "" ' ' = [""] := by decide

theorem Itoa_examples : Itoa 3 = "3" ∧ Itoa 0 = "0" ∧ Itoa 3600 = "3600" ∧ Itoa (-12) = "-12" := by
  decide

theorem SplitHostPort_examples :
    net.SplitHostPort "127.0.0.1:6379" = ("127.0.0.1", "6379", none) ∧
    net.SplitHostPort "[::1]:6379" = ("::1", "6379", none) ∧
    net.SplitHostPort ":6379" = ("", "6379", none) ∧
    net.SplitHostPort "localhost" = net.addrErr "localhost" "missing port in address" ∧
    net.SplitHostPort "" = net.addrErr "" "missing port in address" ∧
    net.SplitHostPort "a:b:c" = net.addrErr "a:b:c" "too many colons in address" ∧
    net.SplitHostPort "[a]b:c" = net.addrErr "[a]b:c" "missing port in address" ∧
    net.SplitHostPort "[a]:b:c" = net.addrErr "[a]:b:c" "too many colons in address" ∧
    net.SplitHostPort "[a:1" = net.addrErr "[a:1" "missing ']' in address" ∧
    net.SplitHostPort "a[b:1" = net.addrErr "a[b:1" "unexpected '[' in address" ∧
    net.SplitHostPort "a]b:1" = net.addrErr "a]b:1" "unexpected ']' in address" := by
  decide

theorem whitespaceTokens_set_command :
    whitespaceTokens "set test_key test_value: " = ["set", "test_key", "test_value:"] := by
  decide

theorem commandsToString_pipeline :
    commandsToString [{ str := "expire pipeline_counter 3600: false", err := none },
        { str := "expire pipeline_counter_1 60: false", err := none }]
      = "expire pipeline_counter 3600: false\nexpire pipeline_counter_1 60: false\n" := by
  decide
/-- A span is finished once: after `BeforeProcess` and a first `AfterProcess`
(command without error), a second `AfterProcess` carrying an error leaves one
finished span and no error tag. -/
theorem AfterProcess_on_finished_span :
    ((v8.NewHook []).BeforeProcess Tracer.empty Context.background
        { str := "get key: ", err := none }).map
      (fun r =>
        let t2 := ((v8.NewHook []).AfterProcess r.1 r.2.1 { str := "get key: ", err := none }).1
        let t3 := ((v8.NewHook []).AfterProcess t2 r.2.1
          { str := "get key: ", err := some (GoError.other "net.OpError" "connection refused") }).1
        (t2.finished, t3.finished, t3.tag 0 ext.Error, decide (t3 = t2)))
      = some ([0], [0], none, true) := by
  decide

/-! ## Single commands: the tags set by `BeforeProcess` -/

/-- C1 (as stated, refuted): for the command string `"set test_key test_value: "`
the span started by `BeforeProcess` carries `redis.args_length = "3"`, whereas the
string has three whitespace-delimited tokens, so that (token count - 1) renders
as `"2"`. -/
theorem C1_args_length_is_not_whitespace_token_count :
    (∃ t' ctx', (v8.NewHook []).BeforeProcess Tracer.empty Context.background
        { str := "set test_key test_value: ", err := none } = some (t', ctx', none) ∧
      t'.tag 0 "redis.args_length" = some (TagValue.str "3") ∧
      t'.tag 0 "redis.args_length" ≠ some (TagValue.str
        (Itoa (((whitespaceTokens "set test_key test_value: ").length : Int) - 1)))) ∧
    Itoa (((whitespaceTokens "set test_key test_value: ").length : Int) - 1) = "2" := by
  refine ⟨⟨_, _, rfl, ?_, ?_⟩, ?_⟩ <;> decide

/-- C1 (amended): for every single command, `BeforeProcess` (v8 and v7) returns
normally and starts a span whose resource name is the prefix of the command's
string form before its first space character and whose `redis.args_length` tag
is the decimal rendering of the number of space characters in that string; and
whenever the string form is a non-empty sequence of non-empty whitespace-free
words joined by single space characters, these are the first
whitespace-delimited token of the string and the decimal rendering of (number
of whitespace-delimited tokens - 1). -/
theorem C1_resource_and_args_length (h8 : v8.Hook) (h7 : v7.hook) (t : Tracer) (ctx : Context)
    (cmd : redis.Cmder) :
    StartedWith t (h8.BeforeProcess t ctx cmd) cmd.str (beforeFirstSpace cmd.str)
      (Itoa ((cmd.str.data.count ' ' : Nat) : Int)) ∧
    StartedWith t (h7.BeforeProcess t ctx cmd) cmd.str (beforeFirstSpace cmd.str)
      (Itoa ((cmd.str.data.count ' ' : Nat) : Int)) ∧
    (∀ toks : List String, toks ≠ [] →
      (∀ w ∈ toks, w ≠ "" ∧ ∀ c ∈ w.data, isWhitespace c = false) →
      cmd.str = joinSpaces toks →
      whitespaceTokens cmd.str = toks ∧
      StartedWith t (h8.BeforeProcess t ctx cmd) cmd.str
        ((whitespaceTokens cmd.str).headD "")
        (Itoa (((whitespaceTokens cmd.str).length : Int) - 1)) ∧
      StartedWith t (h7.BeforeProcess t ctx cmd) cmd.str
        ((whitespaceTokens cmd.str).headD "")
        (Itoa (((whitespaceTokens cmd.str).length : Int) - 1))) := by
  have hcount : (((Split cmd.str ' ').length : Int) - 1) = ((cmd.str.data.count ' ' : Nat) : Int) := by
    rw [Split_length]; push_cast; ring
  have h8s := beforeUnit_startedWith h8.cfg.serviceName h8.cfg.host h8.cfg.port h8.cfg.db
    cmd.str h8.cfg.analyticsRate t ctx
  have h7s := beforeUnit_startedWith h7.tc.params.config.serviceName h7.tc.params.host
    h7.tc.params.port h7.tc.params.db cmd.str h7.tc.params.config.analyticsRate t ctx
  rw [v8_BeforeProcess_eq, v7_BeforeProcess_eq]
  refine ⟨by rw [← hcount]; exact h8s, by rw [← hcount]; exact h7s, ?_⟩
  intro toks hne hw hraw
  obtain ⟨hs, hk⟩ := split_tokens_joinSpaces toks hne hw
  rw [← hraw] at hs hk
  have hfirst : (whitespaceTokens cmd.str).headD "" = beforeFirstSpace cmd.str := by
    have h0 := Split_first cmd.str
    rw [hs] at h0
    rw [hk]
    cases toks with
    | nil => exact absurd rfl hne
    | cons w ws => simpa using h0
  have hlen : (whitespaceTokens cmd.str).length = (Split cmd.str ' ').length := by
    rw [hs, hk]
  rw [hfirst, hlen]
  exact ⟨hk, h8s, h7s⟩

/-- C1 (amended), at the command `"incr int_key: 0"` of `TestMultipleCommands`:
three whitespace-delimited tokens, resource name `"incr"` and
`redis.args_length` `"2"`. -/
theorem C1_resource_and_args_length_witness :
    whitespaceTokens "incr int_key: 0" = ["incr", "int_key:", "0"] ∧
    StartedWith Tracer.empty
      ((v8.NewHook []).BeforeProcess Tracer.empty Context.background
        { str := "incr int_key: 0", err := none })
      "incr int_key: 0" "incr" "2" ∧
    StartedWith Tracer.empty
      (v7.hook.BeforeProcess { tc := v7.WrapClient id { Addr := "127.0.0.1:6379", DB := 0 } [] }
        Tracer.empty Context.background { str := "incr int_key: 0", err := none })
      "incr int_key: 0" "incr" "2" :=
  (C1_resource_and_args_length (v8.NewHook [])
    { tc := v7.WrapClient id { Addr := "127.0.0.1:6379", DB := 0 } [] }
    Tracer.empty Context.background { str := "incr int_key: 0", err := none }).2.2
    ["incr", "int_key:", "0"] (by decide) (by decide) (by decide)

/-- C2: for every command string `raw`, `BeforeProcess` (v8 and v7) returns
normally and starts a span tagged with `redis.raw_command` equal to `raw`
verbatim, with resource name equal to the prefix of `raw` before its first
space character (all of `raw` if it has none), and with `redis.args_length`
equal to the decimal rendering of the number of pieces of `raw` split on the
single space character, minus one; for `raw = "set test_key test_value: "` the
resource name is `"set"` and `redis.args_length` is `"3"`. -/
theorem C2_before_process_tags (h8 : v8.Hook) (h7 : v7.hook) (t : Tracer) (ctx : Context)
    (cmd : redis.Cmder) (e : error) :
    StartedWith t (h8.BeforeProcess t ctx cmd) cmd.str (beforeFirstSpace cmd.str)
      (Itoa (((Split cmd.str ' ').length : Int) - 1)) ∧
    StartedWith t (h7.BeforeProcess t ctx cmd) cmd.str (beforeFirstSpace cmd.str)
      (Itoa (((Split cmd.str ' ').length : Int) - 1)) ∧
    StartedWith t (h8.BeforeProcess t ctx { str := "set test_key test_value: ", err := e })
      "set test_key test_value: " "set" "3" ∧
    StartedWith t (h7.BeforeProcess t ctx { str := "set test_key test_value: ", err := e })
      "set test_key test_value: " "set" "3" := by
  have hres : beforeFirstSpace "set test_key test_value: " = "set" := by decide
  have hargs : Itoa (((Split "set test_key test_value: " ' ').length : Int) - 1) = "3" := by
    decide
  refine ⟨?_, ?_, ?_, ?_⟩
  · rw [v8_BeforeProcess_eq]; exact beforeUnit_startedWith ..
  · rw [v7_BeforeProcess_eq]; exact beforeUnit_startedWith ..
  · have := beforeUnit_startedWith h8.cfg.serviceName h8.cfg.host h8.cfg.port h8.cfg.db
      "set test_key test_value: " h8.cfg.analyticsRate t ctx
    rw [hres, hargs] at this
    exact this
  · have := beforeUnit_startedWith h7.tc.params.config.serviceName h7.tc.params.host
      h7.tc.params.port h7.tc.params.db "set test_key test_value: "
      h7.tc.params.config.analyticsRate t ctx
    rw [hres, hargs] at this
    exact this

/-! ## Finishing a single command -/

/-- C3: for every command, with `cmd` its state when `BeforeProcess` runs and
`cmd'` its state when `AfterProcess` runs, `AfterProcess` (v8 and v7) finishes
the span that `BeforeProcess` started, and the span's error tag is the command's
terminal error if that error is present and is not `redis.Nil`, and is
unpopulated otherwise; in particular it is unpopulated when the terminal error
is `redis.Nil` and when it is absent. -/
theorem C3_error_tag_unless_nil_or_absent (h8 : v8.Hook) (h7 : v7.hook) (t : Tracer)
    (ctx : Context) (cmd cmd' : redis.Cmder) (s : String) :
    FinishedWithError t (h8.BeforeProcess t ctx cmd) (fun tm c => h8.AfterProcess tm c cmd')
      (if cmd'.err ≠ none ∧ cmd'.err ≠ redis.Nil then cmd'.err.map TagValue.err else none) ∧
    FinishedWithError t (h7.BeforeProcess t ctx cmd) (fun tm c => h7.AfterProcess tm c cmd')
      (if cmd'.err ≠ none ∧ cmd'.err ≠ redis.Nil then cmd'.err.map TagValue.err else none) ∧
    FinishedWithError t (h8.BeforeProcess t ctx cmd)
      (fun tm c => h8.AfterProcess tm c { str := s, err := redis.Nil }) none ∧
    FinishedWithError t (h7.BeforeProcess t ctx cmd)
      (fun tm c => h7.AfterProcess tm c { str := s, err := redis.Nil }) none ∧
    FinishedWithError t (h8.BeforeProcess t ctx cmd)
      (fun tm c => h8.AfterProcess tm c { str := s, err := none }) none ∧
    FinishedWithError t (h7.BeforeProcess t ctx cmd)
      (fun tm c => h7.AfterProcess tm c { str := s, err := none }) none := by
  rw [v8_BeforeProcess_eq, v7_BeforeProcess_eq]
  refine ⟨beforeUnit_finishedWithError _ _ _ _ _ _ t ctx cmd',
    beforeUnit_finishedWithError _ _ _ _ _ _ t ctx cmd', ?_, ?_, ?_, ?_⟩
  · simpa using beforeUnit_finishedWithError h8.cfg.serviceName h8.cfg.host h8.cfg.port
      h8.cfg.db cmd.str h8.cfg.analyticsRate t ctx { str := s, err := redis.Nil }
  · simpa using beforeUnit_finishedWithError h7.tc.params.config.serviceName h7.tc.params.host
      h7.tc.params.port h7.tc.params.db cmd.str h7.tc.params.config.analyticsRate t ctx
      { str := s, err := redis.Nil }
  · simpa using beforeUnit_finishedWithError h8.cfg.serviceName h8.cfg.host h8.cfg.port
      h8.cfg.db cmd.str h8.cfg.analyticsRate t ctx { str := s, err := none }
  · simpa using beforeUnit_finishedWithError h7.tc.params.config.serviceName h7.tc.params.host
      h7.tc.params.port h7.tc.params.db cmd.str h7.tc.params.config.analyticsRate t ctx
      { str := s, err := none }

/-! ## Errors returned by the hook -/

/-- C4: for every tracer state, context, command and batch, `BeforeProcess`
and `BeforeProcessPipeline` return normally with a nil error,
`AfterProcessPipeline` returns a nil error whatever errors the commands of the
batch carry, and `AfterProcess` returns exactly the command's own terminal
error, also when that error is `redis.Nil` (v8 and v7). -/
theorem C4_hook_originates_no_error (h8 : v8.Hook) (h7 : v7.hook) (t : Tracer)
    (ctx : Context) (cmd : redis.Cmder) (cmds : List redis.Cmder) (s : String) :
    ((∃ t' ctx', h8.BeforeProcess t ctx cmd = some (t', ctx', none)) ∧
     (∃ t' ctx', h8.BeforeProcessPipeline t ctx cmds = some (t', ctx', none)) ∧
     (h8.AfterProcessPipeline t ctx cmds).2 = none ∧
     (h8.AfterProcess t ctx cmd).2 = cmd.err ∧
     (h8.AfterProcess t ctx { str := s, err := redis.Nil }).2 = redis.Nil) ∧
    ((∃ t' ctx', h7.BeforeProcess t ctx cmd = some (t', ctx', none)) ∧
     (∃ t' ctx', h7.BeforeProcessPipeline t ctx cmds = some (t', ctx', none)) ∧
     (h7.AfterProcessPipeline t ctx cmds).2 = none ∧
     (h7.AfterProcess t ctx cmd).2 = cmd.err ∧
     (h7.AfterProcess t ctx { str := s, err := redis.Nil }).2 = redis.Nil) := by
  rw [v8_BeforeProcess_eq, v7_BeforeProcess_eq, v8_BeforeProcessPipeline_eq,
    v7_BeforeProcessPipeline_eq]
  exact ⟨⟨⟨_, _, beforeUnit_eq ..⟩, ⟨_, _, beforeUnit_eq ..⟩, rfl, rfl, rfl⟩,
    ⟨⟨_, _, beforeUnit_eq ..⟩, ⟨_, _, beforeUnit_eq ..⟩, rfl, rfl, rfl⟩⟩

/-! ## Pipelines -/

/-- C5: for every batch, with `cmds` its commands when `BeforeProcessPipeline`
runs and `cmds'` its commands when `AfterProcessPipeline` runs (any length,
zero included), after the two calls (v8 and v7) the span is finished, its
resource-name tag, which at start was the first space-delimited piece of the
joined text, is `commandsToString cmds'`, and its `redis.pipeline_length` tag is
the decimal rendering of the number of commands; `commandsToString` is every
command's string form followed by a newline, in batch order. -/
theorem C5_pipeline_resource_and_length (h8 : v8.Hook) (h7 : v7.hook) (t : Tracer)
    (ctx : Context) (cmds cmds' : List redis.Cmder) :
    BatchFinishedWith t (h8.BeforeProcessPipeline t ctx cmds)
      (fun tm c => h8.AfterProcessPipeline tm c cmds')
      (beforeFirstSpace (commandsToString cmds)) (commandsToString cmds')
      (Itoa (cmds'.length : Int)) ∧
    BatchFinishedWith t (h7.BeforeProcessPipeline t ctx cmds)
      (fun tm c => h7.AfterProcessPipeline tm c cmds')
      (beforeFirstSpace (commandsToString cmds)) (commandsToString cmds')
      (Itoa (cmds'.length : Int)) ∧
    commandsToString cmds' = newlineJoined cmds' := by
  rw [v8_BeforeProcessPipeline_eq, v7_BeforeProcessPipeline_eq]
  exact ⟨beforeUnit_batchFinishedWith .., beforeUnit_batchFinishedWith ..,
    commandsToString_eq cmds'⟩


/-! ## Analytics sample rate -/

/-- C6: for every rate `r`, a v8 hook built from the defaults, any options and
then `WithAnalyticsRate(r)` emits the analytics sample-rate tag on the spans
started by `BeforeProcess` and `BeforeProcessPipeline` with value exactly `r`
when `0 <= r <= 1`, and emits no sample-rate tag when `r` is outside `[0, 1]`
or is not-a-number; with no option at all, with only the connection options
that `WrapClient` passes, or with `WithAnalytics(false)` last, the tag is
absent, and with `WithAnalytics(true)` last it is present with value `1.0`.
For v7, whose option functions are not among the sources, the tag is absent
exactly when the configured rate is not-a-number and otherwise carries it. -/
theorem C6_analytics_sample_rate_tag (r : Float64) (pre : List v8.ClientOption)
    (o : redis.Options) (h7 : v7.hook) (t : Tracer) (ctx : Context) (cmd : redis.Cmder)
    (cmds : List redis.Cmder) :
    (v8.NewHook (pre ++ [v8.WithAnalyticsRate r])).SampleRateTag (expectedRateTag r) ∧
    (v8.NewHook []).SampleRateTag none ∧
    (v8.NewHook [v8.withRedisOptions o]).SampleRateTag none ∧
    (v8.NewHook (pre ++ [v8.WithAnalytics false])).SampleRateTag none ∧
    (v8.NewHook (pre ++ [v8.WithAnalytics true])).SampleRateTag
      (some (TagValue.num (Float64.fin 1))) ∧
    StartedTag t (h7.BeforeProcess t ctx cmd) ext.EventSampleRate
      (if Float64.IsNaN h7.tc.params.config.analyticsRate then none
       else some (TagValue.num h7.tc.params.config.analyticsRate)) ∧
    StartedTag t (h7.BeforeProcessPipeline t ctx cmds) ext.EventSampleRate
      (if Float64.IsNaN h7.tc.params.config.analyticsRate then none
       else some (TagValue.num h7.tc.params.config.analyticsRate)) := by
  refine ⟨?_, ?_, ?_, ?_, ?_, ?_, ?_⟩
  · have := v8_sampleRateTag (v8.NewHook (pre ++ [v8.WithAnalyticsRate r]))
    rwa [NewHook_append, WithAnalyticsRate_rate] at this
  · exact v8_sampleRateTag (v8.NewHook [])
  · have := v8_sampleRateTag (v8.NewHook [v8.withRedisOptions o])
    simpa [v8.NewHook, v8.withRedisOptions, WithRedisOptions_eq, v8.defaults, Float64.IsNaN]
      using this
  · have := v8_sampleRateTag (v8.NewHook (pre ++ [v8.WithAnalytics false]))
    simpa [NewHook_append, v8.WithAnalytics, Float64.IsNaN] using this
  · have := v8_sampleRateTag (v8.NewHook (pre ++ [v8.WithAnalytics true]))
    simpa [NewHook_append, v8.WithAnalytics, Float64.IsNaN] using this
  · have := (v7_startedTag h7 t ctx cmd cmds ext.EventSampleRate).1
    rwa [hookTags_get_rate] at this
  · have := (v7_startedTag h7 t ctx cmd cmds ext.EventSampleRate).2
    rwa [hookTags_get_rate] at this

/-! ## Host, port and db -/

/-- C7: in v8, for every connection-options value and configuration,
`WithRedisOptions` returns a configuration whose host and port are the two
results of `net.SplitHostPort` on the address when that succeeds, and
`"127.0.0.1"` and `"6379"` when it fails, whose db is the decimal rendering of
the options' DB index, and whose service name and analytics rate are
unchanged.  An address `host:port` with no colon or square bracket in `host`
and `port` gives that host and that port; an address with no colon gives the
defaults. -/
theorem C7_with_redis_options (opts : redis.Options) (cfg : v8.clientConfig) :
    ((v8.WithRedisOptions opts cfg).host, (v8.WithRedisOptions opts cfg).port)
      = (match net.SplitHostPort opts.Addr with
         | (host, port, none) => (host, port)
         | (_, _, some _) => ("127.0.0.1", "6379")) ∧
    (v8.WithRedisOptions opts cfg).db = Itoa opts.DB ∧
    (v8.WithRedisOptions opts cfg).serviceName = cfg.serviceName ∧
    (v8.WithRedisOptions opts cfg).analyticsRate = cfg.analyticsRate ∧
    (∀ host port : String,
      (∀ c ∈ host.data, c ≠ ':' ∧ c ≠ '[' ∧ c ≠ ']') →
      (∀ c ∈ port.data, c ≠ ':' ∧ c ≠ '[' ∧ c ≠ ']') →
      opts.Addr = (host ++ ":") ++ port →
      (v8.WithRedisOptions opts cfg).host = host ∧ (v8.WithRedisOptions opts cfg).port = port) ∧
    (':' ∉ opts.Addr.data →
      (v8.WithRedisOptions opts cfg).host = "127.0.0.1" ∧
      (v8.WithRedisOptions opts cfg).port = "6379") := by
  rw [WithRedisOptions_eq]
  refine ⟨?_, rfl, rfl, rfl, ?_, ?_⟩
  · rcases hs : net.SplitHostPort opts.Addr with ⟨host, port, err⟩
    cases err <;> simp [v8.defaultHost, v8.defaultPort]
  · intro host port hh hp ha
    simp [ha, SplitHostPort_host_port host port hh hp]
  · intro hc
    simp [SplitHostPort_no_colon _ hc, net.addrErr, v8.defaultHost, v8.defaultPort]

/-- C7 at the address `"127.0.0.1:6378"` of `TestError` and at the address
`"localhost"`, which has no port. -/
theorem C7_with_redis_options_witness :
    ((v8.WithRedisOptions { Addr := "127.0.0.1:6378", DB := 2 } (v8.defaults v8.clientConfig.zero)).host
        = "127.0.0.1" ∧
      (v8.WithRedisOptions { Addr := "127.0.0.1:6378", DB := 2 } (v8.defaults v8.clientConfig.zero)).port
        = "6378") ∧
    ((v8.WithRedisOptions { Addr := "localhost", DB := 2 } (v8.defaults v8.clientConfig.zero)).host
        = "127.0.0.1" ∧
      (v8.WithRedisOptions { Addr := "localhost", DB := 2 } (v8.defaults v8.clientConfig.zero)).port
        = "6379") :=
  ⟨(C7_with_redis_options { Addr := "127.0.0.1:6378", DB := 2 }
      (v8.defaults v8.clientConfig.zero)).2.2.2.2.1 "127.0.0.1" "6378"
      (by decide) (by decide) (by decide),
    (C7_with_redis_options { Addr := "localhost", DB := 2 }
      (v8.defaults v8.clientConfig.zero)).2.2.2.2.2 (by decide)⟩

/-- C8 (as stated, refuted): the address `"localhost"` cannot be split into
host and port, and the v7 client wrapped around it records the host
`"localhost"`, not the default `"127.0.0.1"`, on its parameters and on the
spans it starts. -/
theorem C8_v7_host_is_not_default_host :
    (net.SplitHostPort "localhost").2.2 ≠ none ∧
    (v7.WrapClient id { Addr := "localhost", DB := 0 } []).params.host = "localhost" ∧
    (v7.WrapClient id { Addr := "localhost", DB := 0 } []).params.host ≠ "127.0.0.1" ∧
    (∃ t' ctx',
      v7.hook.BeforeProcess { tc := v7.WrapClient id { Addr := "localhost", DB := 0 } [] }
        Tracer.empty Context.background { str := "get key: ", err := none }
        = some (t', ctx', none) ∧
      t'.tag 0 ext.TargetHost = some (TagValue.str "localhost") ∧
      t'.tag 0 ext.TargetHost ≠ some (TagValue.str "127.0.0.1")) := by
  refine ⟨by decide, by decide, by decide, _, _, rfl, by decide, by decide⟩

/-- C8 (amended): in v7, for every client address, the host and port recorded
by `WrapClient`, which are the host and port tags of every span its hook
starts, are the two results of `net.SplitHostPort` on the address when that
succeeds; when it fails the host is the whole address verbatim and the port is
`"6379"`.  An address `host:port` with no colon or square bracket in `host` and
`port` gives that host and that port; an address with no colon gives the
address itself and `"6379"`. -/
theorem C8_v7_host_port (defaults : v7.clientConfig → v7.clientConfig) (c : redis.Options)
    (opts : List v7.ClientOption) (t : Tracer) (ctx : Context) (cmd : redis.Cmder)
    (cmds : List redis.Cmder) :
    ((v7.WrapClient defaults c opts).params.host, (v7.WrapClient defaults c opts).params.port)
      = (match net.SplitHostPort c.Addr with
         | (host, port, none) => (host, port)
         | (_, _, some _) => (c.Addr, "6379")) ∧
    StartedTag t (v7.hook.BeforeProcess { tc := v7.WrapClient defaults c opts } t ctx cmd)
      ext.TargetHost (some (TagValue.str (v7.WrapClient defaults c opts).params.host)) ∧
    StartedTag t (v7.hook.BeforeProcess { tc := v7.WrapClient defaults c opts } t ctx cmd)
      ext.TargetPort (some (TagValue.str (v7.WrapClient defaults c opts).params.port)) ∧
    StartedTag t (v7.hook.BeforeProcessPipeline { tc := v7.WrapClient defaults c opts } t ctx cmds)
      ext.TargetHost (some (TagValue.str (v7.WrapClient defaults c opts).params.host)) ∧
    StartedTag t (v7.hook.BeforeProcessPipeline { tc := v7.WrapClient defaults c opts } t ctx cmds)
      ext.TargetPort (some (TagValue.str (v7.WrapClient defaults c opts).params.port)) ∧
    (∀ host port : String,
      (∀ x ∈ host.data, x ≠ ':' ∧ x ≠ '[' ∧ x ≠ ']') →
      (∀ x ∈ port.data, x ≠ ':' ∧ x ≠ '[' ∧ x ≠ ']') →
      c.Addr = (host ++ ":") ++ port →
      (v7.WrapClient defaults c opts).params.host = host ∧
      (v7.WrapClient defaults c opts).params.port = port) ∧
    (':' ∉ c.Addr.data →
      (v7.WrapClient defaults c opts).params.host = c.Addr ∧
      (v7.WrapClient defaults c opts).params.port = "6379") := by
  have hp := v7_WrapClient_params defaults c opts
  have hv := v7_startedTag { tc := v7.WrapClient defaults c opts } t ctx cmd cmds
  refine ⟨?_, ?_, ?_, ?_, ?_, ?_, ?_⟩
  · rw [hp.1, hp.2]
    rcases hs : net.SplitHostPort c.Addr with ⟨host, port, err⟩
    cases err <;> simp
  · have := (hv ext.TargetHost).1
    rwa [hookTags_get_host] at this
  · have := (hv ext.TargetPort).1
    rwa [hookTags_get_port] at this
  · have := (hv ext.TargetHost).2
    rwa [hookTags_get_host] at this
  · have := (hv ext.TargetPort).2
    rwa [hookTags_get_port] at this
  · intro host port hh hq ha
    rw [hp.1, hp.2]
    simp [ha, SplitHostPort_host_port host port hh hq]
  · intro hc
    rw [hp.1, hp.2]
    simp [SplitHostPort_no_colon _ hc, net.addrErr]

/-- C8 (amended) at the address `"127.0.0.1:6379"` of the tests and at the
address `"localhost"`, which has no port. -/
theorem C8_v7_host_port_witness :
    ((v7.WrapClient id { Addr := "127.0.0.1:6379", DB := 0 } []).params.host = "127.0.0.1" ∧
      (v7.WrapClient id { Addr := "127.0.0.1:6379", DB := 0 } []).params.port = "6379") ∧
    ((v7.WrapClient id { Addr := "localhost", DB := 0 } []).params.host = "localhost" ∧
      (v7.WrapClient id { Addr := "localhost", DB := 0 } []).params.port = "6379") :=
  ⟨(C8_v7_host_port id { Addr := "127.0.0.1:6379", DB := 0 } [] Tracer.empty
      Context.background { str := "get key: ", err := none } []).2.2.2.2.2.1
      "127.0.0.1" "6379" (by decide) (by decide) (by decide),
    (C8_v7_host_port id { Addr := "localhost", DB := 0 } [] Tracer.empty
      Context.background { str := "get key: ", err := none } []).2.2.2.2.2.2 (by decide)⟩

/-! ## Span lifecycle -/

/-- C9: with the tracer as explicit state (the spans started, each with its
finished flag, and the list of finished spans), for every intercepted unit the
`Before` callback starts exactly one new, unfinished span and finishes none,
and the matching `After` callback (the one given the context that `Before`
returned), on the state that `Before` returned and on every later tracer state
in which that span is still unfinished, adds exactly that span, once, to the
finished spans, marks it finished, starts no span and changes no other span;
a repeated `After` call on the state so reached changes nothing, so the span
is finished exactly once.  This holds for single commands, whatever the
command's terminal error (`cmd'` is arbitrary: absent, `redis.Nil` or any other
error), and for batches of any length (v8 and v7). -/
theorem C9_one_span_started_and_finished_per_unit (h8 : v8.Hook) (h7 : v7.hook) (t : Tracer)
    (ctx : Context) (cmd cmd' : redis.Cmder) (cmds cmds' : List redis.Cmder) :
    OneSpanPerUnit t (h8.BeforeProcess t ctx cmd) (fun tm c => h8.AfterProcess tm c cmd') ∧
    OneSpanPerUnit t (h8.BeforeProcessPipeline t ctx cmds)
      (fun tm c => h8.AfterProcessPipeline tm c cmds') ∧
    OneSpanPerUnit t (h7.BeforeProcess t ctx cmd) (fun tm c => h7.AfterProcess tm c cmd') ∧
    OneSpanPerUnit t (h7.BeforeProcessPipeline t ctx cmds)
      (fun tm c => h7.AfterProcessPipeline tm c cmds') := by
  rw [v8_BeforeProcess_eq, v7_BeforeProcess_eq, v8_BeforeProcessPipeline_eq,
    v7_BeforeProcessPipeline_eq]
  have hunit : ∀ (tm : Tracer) (id : Nat), tm.Unfinished id →
      FinishesOne tm (afterUnit tm { span := some id } cmd').1 id ∧
      (afterUnit (afterUnit tm { span := some id } cmd').1 { span := some id } cmd').1
        = (afterUnit tm { span := some id } cmd').1 :=
    fun tm id hu => ⟨afterUnit_finishesOne tm id cmd' hu, afterUnit_twice tm id cmd' cmd' hu⟩
  have hbatch : ∀ (tm : Tracer) (id : Nat), tm.Unfinished id →
      FinishesOne tm (afterBatch tm { span := some id } cmds').1 id ∧
      (afterBatch (afterBatch tm { span := some id } cmds').1 { span := some id } cmds').1
        = (afterBatch tm { span := some id } cmds').1 :=
    fun tm id hu => ⟨afterBatch_finishesOne tm id cmds' hu, afterBatch_twice tm id cmds' cmds' hu⟩
  exact ⟨beforeUnit_oneSpanPerUnit _ _ _ _ _ _ _ _ _ hunit,
    beforeUnit_oneSpanPerUnit _ _ _ _ _ _ _ _ _ hbatch,
    beforeUnit_oneSpanPerUnit _ _ _ _ _ _ _ _ _ hunit,
    beforeUnit_oneSpanPerUnit _ _ _ _ _ _ _ _ _ hbatch⟩

/-! ## Default service name -/

/-- C10 (the code at the failing input): a v8 client created by `NewClient` or
`WrapClient` with no configuration option has exactly one hook added, and
every span this hook starts carries the service name `"redis.client"`, which
is not the `"redis"` that the doc comment of `NewClient` announces. -/
theorem C10_default_service_name_is_redis_client (opt : redis.Options)
    (c : redis.Client v8.Hook) (t : Tracer) (ctx : Context) (cmd : redis.Cmder)
    (cmds : List redis.Cmder) :
    (v8.NewClient opt []).hooks
      = [v8.NewHook [v8.withRedisOptions (redis.NewClient v8.Hook opt).Options]] ∧
    (v8.WrapClient c []).hooks = c.hooks ++ [v8.NewHook [v8.withRedisOptions c.Options]] ∧
    (∀ o : redis.Options,
      StartedTag t ((v8.NewHook [v8.withRedisOptions o]).BeforeProcess t ctx cmd)
        ext.ServiceName (some (TagValue.str "redis.client")) ∧
      StartedTag t ((v8.NewHook [v8.withRedisOptions o]).BeforeProcessPipeline t ctx cmds)
        ext.ServiceName (some (TagValue.str "redis.client"))) ∧
    TagValue.str "redis.client" ≠ TagValue.str "redis" := by
  refine ⟨rfl, rfl, fun o => ?_, by decide⟩
  have hs : (v8.NewHook [v8.withRedisOptions o]).cfg.serviceName = "redis.client" := by
    simp [v8.NewHook, v8.withRedisOptions, WithRedisOptions_eq, v8.defaults]
  have := v8_startedTag (v8.NewHook [v8.withRedisOptions o]) t ctx cmd cmds ext.ServiceName
  rw [hookTags_get_service, hookTags_get_service, hs] at this
  exact this

/-! ## Pipelines: the tags set by `BeforeProcessPipeline` -/

theorem takeWhile_append_of_space_mem (a b : List Char) (h : ' ' ∈ a) :
    (a ++ b).takeWhile (fun c => c ≠ ' ') = a.takeWhile (fun c => c ≠ ' ') := by
  induction a with
  | nil => simp at h
  | cons x xs ih =>
    by_cases hx : x = ' '
    · simp [List.takeWhile_cons, hx]
    · have hxs : ' ' ∈ xs := by
        rcases List.mem_cons.1 h with e | e
        · exact absurd e.symm hx
        · exact e
      have ih' := ih hxs
      simp only [List.cons_append, List.takeWhile_cons, hx, ne_eq, not_false_eq_true,
        decide_True, if_true]
      rw [ih']

/-- When the first command's string form contains a space, the joined text of
the batch and the first command have the same prefix before the first space. -/
theorem beforeFirstSpace_commandsToString_cons (c : redis.Cmder) (cs : List redis.Cmder)
    (h : ' ' ∈ c.str.data) :
    beforeFirstSpace (commandsToString (c :: cs)) = beforeFirstSpace c.str := by
  have hd : (commandsToString (c :: cs)).data
      = c.str.data ++ ('\n' :: (newlineJoined cs).data) := by
    rw [commandsToString_eq]
    simp [newlineJoined, String.data_append]
  unfold beforeFirstSpace
  rw [hd, takeWhile_append_of_space_mem _ _ h]

/-- C11 (as stated, refuted): for the one-command batch whose command has the
string form `"ping"`, the span started by `BeforeProcessPipeline` has the
resource name `"ping\n"`, while the first token of the first command's string
form is `"ping"`, whether tokens are delimited by white space or by single
spaces.  And for the batch of `TestPipeline`, `redis.args_length` is `"6"` (the
number of space characters of the joined text), while the joined text has
eight whitespace-delimited tokens. -/
theorem C11_resource_name_is_not_first_command_operator :
    (∃ t' ctx', (v8.NewHook []).BeforeProcessPipeline Tracer.empty Context.background
        [{ str := "ping", err := none }] = some (t', ctx', none) ∧
      t'.tag 0 ext.ResourceName = some (TagValue.str "ping\n") ∧
      t'.tag 0 ext.ResourceName ≠ some (TagValue.str "ping")) ∧
    whitespaceTokens "ping" = ["ping"] ∧
    Split "ping" ' ' = ["ping"] ∧
    (∃ t' ctx', (v8.NewHook []).BeforeProcessPipeline Tracer.empty Context.background
        [{ str := "expire pipeline_counter 3600: false", err := none },
         { str := "expire pipeline_counter_1 60: false", err := none }]
        = some (t', ctx', none) ∧
      t'.tag 0 "redis.args_length" = some (TagValue.str "6")) ∧
    Itoa (((whitespaceTokens
      "expire pipeline_counter 3600: false\nexpire pipeline_counter_1 60: false\n").length
        : Int) - 1) = "7" := by
  refine ⟨⟨_, _, rfl, ?_, ?_⟩, ?_, ?_, ⟨_, _, rfl, ?_⟩, ?_⟩ <;> decide

/-- C11 (amended): for every batch, `BeforeProcessPipeline` (v8 and v7) returns
normally and starts a span tagged with `redis.raw_command` equal to
`commandsToString` of the batch, with resource name equal to the prefix of
that joined text before its first space character, and with
`redis.args_length` equal to the decimal rendering of the number of space
characters of the joined text (the pieces of its single-space split, minus
one).  Whenever the batch is not empty and the string form of its first command
contains a space character, the resource name is the prefix of the first
command's string form before its first space.  For the empty batch the
indexing does not fail, the resource name is the empty string and
`redis.args_length` is `"0"`. -/
theorem C11_pipeline_before_tags (h8 : v8.Hook) (h7 : v7.hook) (t : Tracer) (ctx : Context)
    (cmds : List redis.Cmder) :
    StartedWith t (h8.BeforeProcessPipeline t ctx cmds) (commandsToString cmds)
      (beforeFirstSpace (commandsToString cmds))
      (Itoa (((commandsToString cmds).data.count ' ' : Nat) : Int)) ∧
    StartedWith t (h7.BeforeProcessPipeline t ctx cmds) (commandsToString cmds)
      (beforeFirstSpace (commandsToString cmds))
      (Itoa (((commandsToString cmds).data.count ' ' : Nat) : Int)) ∧
    (((Split (commandsToString cmds) ' ').length : Int) - 1
      = (((commandsToString cmds).data.count ' ' : Nat) : Int)) ∧
    (∀ (c : redis.Cmder) (cs : List redis.Cmder), cmds = c :: cs → ' ' ∈ c.str.data →
      StartedWith t (h8.BeforeProcessPipeline t ctx cmds) (commandsToString cmds)
        (beforeFirstSpace c.str)
        (Itoa (((commandsToString cmds).data.count ' ' : Nat) : Int)) ∧
      StartedWith t (h7.BeforeProcessPipeline t ctx cmds) (commandsToString cmds)
        (beforeFirstSpace c.str)
        (Itoa (((commandsToString cmds).data.count ' ' : Nat) : Int))) ∧
    StartedWith t (h8.BeforeProcessPipeline t ctx []) "" "" "0" ∧
    StartedWith t (h7.BeforeProcessPipeline t ctx []) "" "" "0" := by
  have hcount : ∀ raw : String,
      (((Split raw ' ').length : Int) - 1) = ((raw.data.count ' ' : Nat) : Int) := by
    intro raw
    rw [Split_length]; push_cast; ring
  have h8s : ∀ l : List redis.Cmder,
      StartedWith t (h8.BeforeProcessPipeline t ctx l) (commandsToString l)
        (beforeFirstSpace (commandsToString l))
        (Itoa (((commandsToString l).data.count ' ' : Nat) : Int)) := by
    intro l
    rw [v8_BeforeProcessPipeline_eq, ← hcount]
    exact beforeUnit_startedWith ..
  have h7s : ∀ l : List redis.Cmder,
      StartedWith t (h7.BeforeProcessPipeline t ctx l) (commandsToString l)
        (beforeFirstSpace (commandsToString l))
        (Itoa (((commandsToString l).data.count ' ' : Nat) : Int)) := by
    intro l
    rw [v7_BeforeProcessPipeline_eq, ← hcount]
    exact beforeUnit_startedWith ..
  have hres : beforeFirstSpace (commandsToString []) = "" := by decide
  have hargs : Itoa ((((commandsToString []).data.count ' ' : Nat)) : Int) = "0" := by decide
  have hraw : commandsToString [] = "" := by decide
  refine ⟨h8s cmds, h7s cmds, hcount _, ?_, ?_, ?_⟩
  · intro c cs hc hsp
    have h8c := h8s cmds
    have h7c := h7s cmds
    rw [hc, beforeFirstSpace_commandsToString_cons c cs hsp] at h8c h7c
    rw [hc]
    exact ⟨h8c, h7c⟩
  · have := h8s []
    rwa [hres, hargs, hraw] at this
  · have := h7s []
    rwa [hres, hargs, hraw] at this

/-- C11 (amended) at the batch of `TestPipeline`: the first command's string
form contains a space, the resource name is `"expire"` and `redis.args_length`
is `"6"`. -/
theorem C11_pipeline_before_tags_witness :
    StartedWith Tracer.empty
      ((v8.NewHook []).BeforeProcessPipeline Tracer.empty Context.background
        [{ str := "expire pipeline_counter 3600: false", err := none },
         { str := "expire pipeline_counter_1 60: false", err := none }])
      "expire pipeline_counter 3600: false\nexpire pipeline_counter_1 60: false\n"
      "expire" "6" ∧
    StartedWith Tracer.empty
      (v7.hook.BeforeProcessPipeline
        { tc := v7.WrapClient id { Addr := "127.0.0.1:6379", DB := 0 } [] }
        Tracer.empty Context.background
        [{ str := "expire pipeline_counter 3600: false", err := none },
         { str := "expire pipeline_counter_1 60: false", err := none }])
      "expire pipeline_counter 3600: false\nexpire pipeline_counter_1 60: false\n"
      "expire" "6" :=
  (C11_pipeline_before_tags (v8.NewHook [])
    { tc := v7.WrapClient id { Addr := "127.0.0.1:6379", DB := 0 } [] }
    Tracer.empty Context.background
    [{ str := "expire pipeline_counter 3600: false", err := none },
     { str := "expire pipeline_counter_1 60: false", err := none }]).2.2.2.1
    { str := "expire pipeline_counter 3600: false", err := none }
    [{ str := "expire pipeline_counter_1 60: false", err := none }] rfl (by decide)

end GoRedisTrace
